import Mathlib

namespace ChinaRMB

/-!
Verification of the ChinaRMBSite asset-mirroring scripts.

The development shallowly embeds the pure logic of
`script/download_assets.py` (single-page mirror: path mapper, fetcher,
resolver, rewirer) and `scripts/cache_rmb_assets.py` (batch mirror:
variant-retrying fetcher, run-wide dedup ledger, text rewriter).

Modeling conventions:
- Strings are modeled at the ASCII/byte level.  Python's `str.isalnum`,
  `str.lower` and `\s` are Unicode-aware; here `Char.isAlphanum`,
  `Char.toLower` and an explicit ASCII whitespace list are used.  All
  inputs appearing in the theorems are ASCII, where the two agree.
- `urllib.parse.unquote` decodes `%XX` escapes to bytes and then
  UTF-8-decodes; the model maps each `%XX` escape to the character with
  code `XX` (identical for ASCII escapes, which is all the theorems use).
- Filesystem state is an association list from path-segment lists to file
  contents; `pathlib.Path` values are segment lists.
- The network is an oracle function from a request URL to an outcome;
  requests issued are recorded in explicit traces, so "is fetched" is a
  statement about the trace.
-/

/-- Model of Python `s.split(sep)[0]`: the characters before the first
occurrence of `sep`. -/
def takeBeforeChar (sep : Char) (s : String) : String :=
  String.mk (s.data.takeWhile (fun c => c ≠ sep))

/-- Helper for `splitChar`, accumulating the current field in reverse. -/
def splitCharAux (sep : Char) : List Char → List Char → List String
  | [], acc => [String.mk acc.reverse]
  | c :: rest, acc =>
    if c = sep then String.mk acc.reverse :: splitCharAux sep rest []
    else splitCharAux sep rest (c :: acc)

/-- Model of Python `s.split(sep)` for a single-character separator
(keeps empty fields, `"".split(sep) = [""]`). -/
def splitChar (sep : Char) (s : String) : List String :=
  splitCharAux sep s.data []

/-- Model of Python `s.rstrip(sep)` for a single character. -/
def rstripChar (sep : Char) (s : String) : String :=
  String.mk (s.data.reverse.dropWhile (fun c => c = sep)).reverse

/-- Model of Python `s.lstrip(sep)` for a single character. -/
def lstripChar (sep : Char) (s : String) : String :=
  String.mk (s.data.dropWhile (fun c => c = sep))

/-- Model of Python `s.lower()` (ASCII). -/
def pyLower (s : String) : String :=
  String.mk (s.data.map Char.toLower)

/-- Value of a hexadecimal digit, if `c` is one. -/
def hexDigitVal (c : Char) : Option Nat :=
  if c.isDigit then some (c.toNat - 48)
  else if 'a' ≤ c ∧ c ≤ 'f' then some (c.toNat - 87)
  else if 'A' ≤ c ∧ c ≤ 'F' then some (c.toNat - 55)
  else none

/-- Core of `unquote`: decode `%XX` escapes, leaving invalid escapes
verbatim (as Python does). -/
def unquoteAux : List Char → List Char
  | [] => []
  | '%' :: a :: b :: rest =>
    match hexDigitVal a, hexDigitVal b with
    | some x, some y => Char.ofNat (16 * x + y) :: unquoteAux rest
    | _, _ => '%' :: unquoteAux (a :: b :: rest)
  | c :: rest => c :: unquoteAux rest

/-- Model of Python `urllib.parse.unquote` (see the header note on the
byte-level treatment of non-ASCII escapes). -/
def unquote (s : String) : String :=
  String.mk (unquoteAux s.data)

/-- Segment list of a `pathlib.PurePosixPath`: split on `/`, dropping
empty segments and `.` segments (pathlib keeps `..`). -/
def pyPathSegments (s : String) : List String :=
  (splitChar '/' s).filter (fun p => p != "" && p != ".")

/-- Model of `pathlib.Path(s).name`: the last retained segment, or the
empty string when there is none (e.g. for `"/"` or `"."`). -/
def pyPathName (s : String) : String :=
  (pyPathSegments s).getLastD ""

/-- Characters `sanitize_filename` keeps: alphanumerics and `.`, `-`, `_`
(`download_assets.py` line 97). -/
def isFilenameSafeChar (c : Char) : Bool :=
  c.isAlphanum || c = '.' || c = '-' || c = '_'

/-- Characters directory sanitization keeps: alphanumerics and `-`, `_`
(`download_assets.py` line 121); note `.` is not kept here. -/
def isDirSafeChar (c : Char) : Bool :=
  c.isAlphanum || c = '-' || c = '_'

/-- Stand-in for `hashlib.md5(raw_name.encode()).hexdigest()` in the
`return safe or ...` fallback of `sanitize_filename`.  The lemma
`sanitize_filename_md5_unreachable` proves this branch is never taken
(the sanitized base is never empty), so the digest value is irrelevant;
it is fixed to a 32-character hex string of the right shape. -/
def md5_hexdigest (_raw_name : String) : String :=
  "d41d8cd98f00b204e9800998ecf8427e"

/-- Model of Python `name.endswith("/")`: the last character is `/`. -/
def endsWithSlash (s : String) : Bool :=
  s.data.getLast? == some '/'

/-- Lines 88-93 of `sanitize_filename`: strip query and fragment,
percent-decode, and normalize empty or trailing-slash names. -/
def filenameNameStage (raw_name : String) : String :=
  let name := unquote (takeBeforeChar '#' (takeBeforeChar '?' raw_name))
  if name = "" || endsWithSlash name then
    let n := rstripChar '/' name
    if n = "" then "image" else n
  else name

/-- Lines 94-96 of `sanitize_filename`: take the pathlib `name` of the
normalized string, falling back to `"image"` when it is empty. -/
def filenameBaseStage (raw_name : String) : String :=
  let base := pyPathName (filenameNameStage raw_name)
  if base = "" then "image" else base

/-- Line 97 of `sanitize_filename`: map every character outside the safe
set to `_`. -/
def sanitizeBase (base : String) : String :=
  String.mk (base.data.map (fun ch => if isFilenameSafeChar ch then ch else '_'))

/-- Model of `download_assets.sanitize_filename` (lines 87-98), composed
from its stages in source order; `safe or md5(...)` is the final `if`. -/
def sanitize_filename (raw_name : String) : String :=
  let safe := sanitizeBase (filenameBaseStage raw_name)
  if safe = "" then md5_hexdigest raw_name else safe

/-- Directory-segment sanitization of `build_relative_asset_path`
(lines 120-124): map unsafe characters to `_`; an empty result falls
back to `dir_<index>`. -/
def sanitizeDirSegment (index : Nat) (part : String) : String :=
  let safe := String.mk (part.data.map (fun ch => if isDirSafeChar ch then ch else '_'))
  if safe = "" then "dir_" ++ toString index else safe

/-- Sanitize a list of directory segments, numbering them from `index`
as Python's `enumerate` does. -/
def sanitizeDirectories (index : Nat) : List String → List String
  | [] => []
  | p :: rest => sanitizeDirSegment index p :: sanitizeDirectories (index + 1) rest

/-- Index of the first non-final segment case-insensitively equal to
"assets" (`download_assets.py` lines 110-115): Python's
`next(index for index, part in enumerate(parts[:-1]) if ...)` wrapped
in `StopIteration → None`. -/
def firstAssetsIdx (parts : List String) : Option Nat :=
  parts.dropLast.findIdx? (fun p => pyLower p == "assets")

/-- Cleaning stage of `build_relative_asset_path` (lines 102-106): strip
query and fragment, percent-decode, split on `/` dropping empty
segments, and fall back to `["image"]` for an empty list. -/
def rawAssetParts (raw_path : String) : List String :=
  let cleaned := takeBeforeChar '#' (takeBeforeChar '?' raw_path)
  let cleaned := unquote cleaned
  let parts := (splitChar '/' cleaned).filter (fun p => p != "")
  if parts = [] then ["image"] else parts

/-- Leading-segment drop of `build_relative_asset_path` (lines 108-117):
`if assets_index and assets_index > 0: parts = parts[assets_index:]`.
Note Python's truthiness makes index `0` a no-op. -/
def dropBeforeAssets (parts : List String) : List String :=
  match firstAssetsIdx parts with
  | some i => if 0 < i then parts.drop i else parts
  | none => parts

/-- Sanitization stage of `build_relative_asset_path` (lines 119-127):
sanitize the directory segments and the final segment, and assemble the
`Path(*directories, filename)` result as a segment list. -/
def sanitizeParts (parts : List String) : List String :=
  sanitizeDirectories 0 parts.dropLast ++ [sanitize_filename (parts.getLastD "image")]

/-- Model of `download_assets.build_relative_asset_path` (lines 101-127),
composed from its stages in source order. -/
def build_relative_asset_path (raw_path : String) : List String :=
  sanitizeParts (dropBeforeAssets (rawAssetParts raw_path))

/-! URL parsing and encoding: models of `urllib.parse.urlparse`,
`quote` and `urlunparse` for the components these scripts use. -/

/-- Components of a parsed URL, as `urllib.parse.urlparse` returns them. -/
structure UrlParts where
  scheme : String
  netloc : String
  path : String
  params : String
  query : String
  fragment : String
deriving Repr, DecidableEq

/-- Characters allowed inside a URL scheme. -/
def isSchemeChar (c : Char) : Bool :=
  c.isAlphanum || c = '+' || c = '-' || c = '.'

/-- Scheme detection of `urlsplit`: the prefix before the first `:` is a
scheme when it is nonempty, starts with a letter and consists of scheme
characters; otherwise the default scheme applies. -/
def splitScheme (url : String) (default_scheme : String) : String × String :=
  match url.data.findIdx? (fun c => c = ':') with
  | some i =>
    if 0 < i && (url.data.take i).all isSchemeChar
        && (match url.data with | c :: _ => c.isAlpha | [] => false) then
      (pyLower (String.mk (url.data.take i)), String.mk (url.data.drop (i + 1)))
    else (default_scheme, url)
  | none => (default_scheme, url)

/-- Netloc detection of `urlsplit`: after a leading `//`, up to the
first `/`, `?` or `#`. -/
def splitNetloc (rest : String) : String × String :=
  if rest.data.take 2 = ['/', '/'] then
    let after := rest.data.drop 2
    let netloc := after.takeWhile (fun c => c ≠ '/' && c ≠ '?' && c ≠ '#')
    (String.mk netloc, String.mk (after.drop netloc.length))
  else ("", rest)

/-- Characters after the first occurrence of `sep` (empty if absent). -/
def dropAfterChar (sep : Char) (s : String) : String :=
  match s.data.dropWhile (fun c => c ≠ sep) with
  | [] => ""
  | _ :: rest => String.mk rest

/-- Params split of `urlparse._splitparams`: the part of the path after
a `;` in its final segment. -/
def splitParams (path : String) : String × String :=
  let fromLastSlash :=
    match (path.data.reverse.findIdx? (fun c => c = '/')) with
    | some j => path.data.length - 1 - j
    | none => 0
  match (path.data.drop fromLastSlash).findIdx? (fun c => c = ';') with
  | some k =>
    let i := fromLastSlash + k
    (String.mk (path.data.take i), String.mk (path.data.drop (i + 1)))
  | none => (path, "")

/-- Model of `urllib.parse.urlparse` with a default scheme (CPython
`urlsplit` order: scheme, netloc, fragment, query, then params). -/
def urlparseD (url : String) (default_scheme : String) : UrlParts :=
  let sr := splitScheme url default_scheme
  let nr := splitNetloc sr.2
  let fragment := dropAfterChar '#' nr.2
  let beforeFrag := takeBeforeChar '#' nr.2
  let query := dropAfterChar '?' beforeFrag
  let beforeQuery := takeBeforeChar '?' beforeFrag
  let pp := splitParams beforeQuery
  ⟨sr.1, nr.1, pp.1, pp.2, query, fragment⟩

/-- Model of `urllib.parse.urlparse` (empty default scheme). -/
def urlparse (url : String) : UrlParts := urlparseD url ""

/-- Uppercase hexadecimal digit for a value below 16. -/
def hexUpper (n : Nat) : Char :=
  if n < 10 then Char.ofNat (48 + n) else Char.ofNat (55 + n)

/-- Percent-encoding of one character (byte-level; see header note). -/
def percentEncodeChar (c : Char) : List Char :=
  ['%', hexUpper (c.toNat / 16 % 16), hexUpper (c.toNat % 16)]

/-- Characters `urllib.parse.quote` never encodes. -/
def isAlwaysSafe (c : Char) : Bool :=
  c.isAlphanum || c = '_' || c = '.' || c = '-' || c = '~'

/-- Model of `urllib.parse.quote(s, safe)`. -/
def quote (s : String) (safe : String) : String :=
  String.mk (s.data.foldr
    (fun c acc =>
      (if isAlwaysSafe c || safe.data.contains c then [c] else percentEncodeChar c) ++ acc)
    [])

/-- Model of `urllib.parse.urlunparse` (via `urlunsplit`, re-attaching
params with `;`). -/
def urlunparse (u : UrlParts) : String :=
  let url := if u.params ≠ "" then u.path ++ ";" ++ u.params else u.path
  let url :=
    if u.netloc ≠ "" || (url ≠ "" && url.data.take 2 = ['/', '/']) then
      "//" ++ u.netloc ++ (if url ≠ "" && url.data.take 1 ≠ ['/'] then "/" ++ url else url)
    else url
  let url := if u.scheme ≠ "" then u.scheme ++ ":" ++ url else url
  let url := if u.query ≠ "" then url ++ "?" ++ u.query else url
  if u.fragment ≠ "" then url ++ "#" ++ u.fragment else url

/-! Filesystem and network models. -/

/-- Filesystem: an association list from absolute path (segment list) to
file contents. -/
abbrev Fs := List (List String × String)

/-- Model of `Path.exists()`. -/
def fsContains (fs : Fs) (p : List String) : Bool :=
  fs.any (fun e => e.1 == p)

/-- Model of reading a file's text. -/
def fsRead (fs : Fs) (p : List String) : Option String :=
  (fs.find? (fun e => e.1 == p)).map (fun e => e.2)

/-- Model of writing a file (directories are implicit). -/
def fsWrite (fs : Fs) (p : List String) (content : String) : Fs :=
  (p, content) :: fs.filter (fun e => e.1 != p)

/-- Outcome of one `urllib.request.urlopen` call, supplied by a network
oracle keyed on the encoded request URL. -/
inductive FetchOutcome where
  | ok (body : String)
  | httpErr (code : Nat)
  | urlErr (msg : String)
deriving Repr, DecidableEq

/-- Errors `download_remote_file` can raise: `MissingRemoteAsset` on the
first 404, or `RuntimeError` after all variants fail. -/
inductive DlError where
  | missing (url : String)
  | runtime (url : String) (cause : String)
deriving Repr, DecidableEq

/-- Description of the last exception interpolated into the
`RuntimeError` message. -/
def describeExc : Option FetchOutcome → String
  | some (.httpErr code) => "HTTP Error " ++ toString code
  | some (.urlErr m) => m
  | _ => "None"

/-- Path variants of `cache_rmb_assets.download_remote_file`
(lines 54-60): conservative quoting first; full quoting when the path
contains `:`; the conservative path again when a query is present (its
query is stripped at attempt time). -/
def path_variants (p : UrlParts) : List String :=
  [quote p.path "/:"]
    ++ (if p.path.data.contains ':' then [quote p.path "/"] else [])
    ++ (if p.query ≠ "" then [quote p.path "/:"] else [])

/-- Candidate assembly of `download_remote_file`'s loop (lines 63-68),
mirroring `enumerate(path_variants)`: each path variant re-assembled
with `urlunparse`, the query stripped exactly on the last variant when a
query is present. -/
def enumerateCandidates (p : UrlParts) (total : Nat) : Nat → List String → List String
  | _, [] => []
  | idx, v :: rest =>
    urlunparse { p with
        path := v,
        query := (if idx = total - 1 ∧ p.query ≠ "" then "" else p.query) }
      :: enumerateCandidates p total (idx + 1) rest

/-- Request URLs attempted by `download_remote_file`, in order. -/
def candidateUrls (url : String) : List String :=
  let p := urlparse url
  let vs := path_variants p
  enumerateCandidates p vs.length 0 vs

/-- Variant list as the spec words it (the refinement twin of
`candidateUrls`): first the path percent-encoded preserving `/` and `:`;
then, only if the path contains `:`, the path fully percent-encoded
preserving only `/`; then, only if the URL has a query string, one final
candidate with the query stripped entirely. -/
def specVariantUrls (url : String) : List String :=
  let p := urlparse url
  [urlunparse { p with path := quote p.path "/:" }]
    ++ (if p.path.data.contains ':' then [urlunparse { p with path := quote p.path "/" }] else [])
    ++ (if p.query ≠ "" then [urlunparse { p with path := quote p.path "/:", query := "" }] else [])

/-- Attempt loop of `download_remote_file` (lines 62-91): try each
candidate URL; success writes the file and stops; a 404 raises
`MissingRemoteAsset` at once; other errors are remembered and the next
variant is tried; exhaustion raises `RuntimeError` with the last cause.
Returns (outcome, filesystem, trace of URLs actually requested). -/
def attemptDownload (fetch : String → FetchOutcome) (url : String) (destination : List String)
    (fs : Fs) : List String → Option FetchOutcome → (Except DlError Bool) × Fs × List String
  | [], lastExc => (.error (.runtime url (describeExc lastExc)), fs, [])
  | c :: rest, lastExc =>
    match fetch c with
    | .ok body => (.ok true, fsWrite fs destination body, [c])
    | .httpErr code =>
      if code = 404 then (.error (.missing url), fs, [c])
      else
        let r := attemptDownload fetch url destination fs rest (some (.httpErr code))
        (r.1, r.2.1, c :: r.2.2)
    | .urlErr m =>
      let r := attemptDownload fetch url destination fs rest (some (.urlErr m))
      (r.1, r.2.1, c :: r.2.2)

/-- Model of `cache_rmb_assets.download_remote_file` (lines 38-91):
short-circuit when the destination exists and `force` is off, otherwise
run the variant attempt loop. -/
def download_remote_file (fetch : String → FetchOutcome) (url : String)
    (destination : List String) (force : Bool) (fs : Fs) :
    (Except DlError Bool) × Fs × List String :=
  if fsContains fs destination && !force then (.ok false, fs, [])
  else attemptDownload fetch url destination fs (candidateUrls url) none

/-- An attempt outcome that makes the loop continue to the next variant:
a non-404 HTTP error or a transport error. -/
def isNon404Failure : FetchOutcome → Prop
  | .httpErr code => code ≠ 404
  | .urlErr _ => True
  | .ok _ => False

/-! The batch script `cache_rmb_assets.py`: URL pattern scanner, text
rewriter, run-wide dedup ledger, and the per-run orchestration. -/

/-- The supported remote hosts (`ASSET_HOSTS`, line 20). -/
def ASSET_HOSTS : List String := ["assets.rmb.co.za", "cdn-assets-eu.frontify.com"]

/-- ASCII whitespace matched by the regex class `\s` (see header note on
the Unicode divergence). -/
def isAsciiSpace (c : Char) : Bool :=
  c = ' ' || c = Char.ofNat 9 || c = Char.ofNat 10 || c = Char.ofNat 13
    || c = Char.ofNat 11 || c = Char.ofNat 12

/-- Characters admitted by the regex tail class
`[^\s"'()<>]` of `URL_PATTERN` (line 21-23). -/
def isUrlMatchChar (c : Char) : Bool :=
  !(isAsciiSpace c) && c ≠ Char.ofNat 34 && c ≠ Char.ofNat 39
    && c ≠ '(' && c ≠ ')' && c ≠ '<' && c ≠ '>'

/-- Try to match `URL_PATTERN` for one fixed host at the head of `l`:
the literal `https://<host>/` followed by a maximal nonempty run of
admitted characters.  Returns the matched string and the rest. -/
def matchHostAt (host : String) (l : List Char) : Option (String × List Char) :=
  let pre := ("https://" ++ host ++ "/").data
  if pre.isPrefixOf l then
    let rest := l.drop pre.length
    let run := rest.takeWhile isUrlMatchChar
    if run.isEmpty then none
    else some (String.mk (pre ++ run), rest.drop run.length)
  else none

/-- Try `URL_PATTERN` at the head of `l`, hosts in alternation order. -/
def tryMatchAt (l : List Char) : Option (String × List Char) :=
  match matchHostAt "assets.rmb.co.za" l with
  | some r => some r
  | none => matchHostAt "cdn-assets-eu.frontify.com" l

/-- Scanner for `re.findall(URL_PATTERN, text)`: leftmost,
non-overlapping, greedy matches.  Fueled recursion; every match consumes
at least one character, so fuel `l.length` is always sufficient. -/
def findallAux (fuel : Nat) (l : List Char) : List String :=
  match fuel with
  | 0 => []
  | fuel' + 1 =>
    match l with
    | [] => []
    | c :: rest =>
      match tryMatchAt (c :: rest) with
      | some (m, after) => m :: findallAux fuel' after
      | none => findallAux fuel' rest

/-- Model of `URL_PATTERN.findall(text)` (line 110). -/
def urlPatternFindall (s : String) : List String :=
  findallAux s.data.length s.data

/-- Deduplication keeping first occurrences.  Models
`set(URL_PATTERN.findall(...))` together with the insertion order of the
`replacements` dict built from it; CPython's set iteration order is
unspecified, and first-occurrence order is one admissible choice (the
theorems below do not depend on the order). -/
def dedupFirstAux (seen : List String) : List String → List String
  | [] => []
  | x :: rest =>
    if seen.contains x then dedupFirstAux seen rest
    else x :: dedupFirstAux (x :: seen) rest

/-- Unique matches of the pattern in first-occurrence order. -/
def dedupFirst (l : List String) : List String := dedupFirstAux [] l

/-- Core of Python `str.replace` for a nonempty needle: left-to-right,
non-overlapping, global.  Each successful match consumes at least one
character, so fuel `l.length` suffices. -/
def pyReplaceAux (needle repl : List Char) (fuel : Nat) (l : List Char) : List Char :=
  match fuel with
  | 0 => l
  | fuel' + 1 =>
    match l with
    | [] => []
    | c :: rest =>
      if !needle.isEmpty && needle.isPrefixOf (c :: rest) then
        repl ++ pyReplaceAux needle repl fuel' ((c :: rest).drop needle.length)
      else c :: pyReplaceAux needle repl fuel' rest

/-- Model of Python `s.replace(a, b)` for nonempty `a` (every needle in
this development is a URL beginning with `https://`). -/
def pyReplace (s a b : String) : String :=
  String.mk (pyReplaceAux a.data b.data s.data.length s.data)

/-- Mutable state of one batch run: the dedup ledger `seen_urls`, the
`missing_assets` report list, the filesystem, the trace of encoded URLs
passed to `urlopen` (`attempts`), and the URLs for which
`download_remote_file` was invoked (`downloads`). -/
structure RunState where
  seen_urls : List String
  missing_assets : List (List String × String)
  fs : Fs
  attempts : List String
  downloads : List String
deriving Repr, DecidableEq

/-- Local path segments for a remote path:
`pathlib.Path("assets") / Path(remote_path)` (line 125). -/
def localRelativeSegments (remote_path : String) : List String :=
  "assets" :: pyPathSegments remote_path

/-- Handling of a single matched URL inside `rewrite_file`'s loop
(lines 115-136).  Returns (propagated RuntimeError message if any,
replacement entry if any, updated state). -/
def processUrl (fetch : String → FetchOutcome) (file_path project_root : List String)
    (force_download dry_run : Bool) (url : String) (st : RunState) :
    Option String × Option (String × String) × RunState :=
  let parsed := urlparse url
  if !(ASSET_HOSTS.contains parsed.netloc) then (none, none, st)
  else
    let remote_path := lstripChar '/' parsed.path
    if remote_path = "" then (none, none, st)
    else
      let local_relative := localRelativeSegments remote_path
      let local_full_path := project_root ++ local_relative
      let repl := (url, "/" ++ String.intercalate "/" local_relative)
      if !dry_run && !(st.seen_urls.contains url) then
        let r := download_remote_file fetch url local_full_path force_download st.fs
        let st1 : RunState :=
          { st with
              fs := r.2.1,
              attempts := st.attempts ++ r.2.2,
              downloads := st.downloads ++ [url] }
        match r.1 with
        | .error (.missing _) =>
          (none, none, { st1 with missing_assets := st1.missing_assets ++ [(file_path, url)] })
        | .error (.runtime u cause) =>
          (some ("Failed to download " ++ u ++ ": " ++ cause), none, st1)
        | .ok _ =>
          (none, some repl, { st1 with seen_urls := st1.seen_urls ++ [url] })
      else (none, some repl, st)

/-- The loop of `rewrite_file` over the unique matches, accumulating the
`replacements` association in order; a propagated exception stops the
loop (later URLs unprocessed, accumulated replacements discarded). -/
def processUrls (fetch : String → FetchOutcome) (file_path project_root : List String)
    (force_download dry_run : Bool) :
    List String → RunState → Option String × List (String × String) × RunState
  | [], st => (none, [], st)
  | u :: rest, st =>
    match processUrl fetch file_path project_root force_download dry_run u st with
    | (some e, _, st1) => (some e, [], st1)
    | (none, entry, st1) =>
      let r := processUrls fetch file_path project_root force_download dry_run rest st1
      (r.1, (match entry with | some x => x :: r.2.1 | none => r.2.1), r.2.2)

/-- Unique pattern matches of a document (line 110's
`set(URL_PATTERN.findall(...))` in first-occurrence order). -/
def uniqueUrlMatches (text : String) : List String :=
  dedupFirst (urlPatternFindall text)

/-- Application of the `replacements` dict (lines 138-140): sequential
global `str.replace` per entry. -/
def applyReplacements (repls : List (String × String)) (text : String) : String :=
  repls.foldl (fun t r => pyReplace t r.1 r.2) text

/-- Model of `cache_rmb_assets.rewrite_file` (lines 96-146).  Returns
(propagated RuntimeError message if any, changed flag, handled count,
updated state).  On propagation the flag and count are dummies — the
Python function raises instead of returning — but the state keeps the
mutations (in-place list/set updates and disk writes) made so far. -/
def rewrite_file (fetch : String → FetchOutcome) (file_path project_root : List String)
    (force_download dry_run : Bool) (st : RunState) :
    Option String × Bool × Nat × RunState :=
  let original_text := (fsRead st.fs file_path).getD ""
  let uniqueMatches := uniqueUrlMatches original_text
  if uniqueMatches.isEmpty then (none, false, 0, st)
  else
    match processUrls fetch file_path project_root force_download dry_run uniqueMatches st with
    | (some e, _, st1) => (some e, false, 0, st1)
    | (none, replacements, st1) =>
      let new_text := applyReplacements replacements original_text
      if dry_run || (new_text == original_text) then (none, false, replacements.length, st1)
      else (none, true, replacements.length,
            { st1 with fs := fsWrite st1.fs file_path new_text })

/-- Summary counters of `run` (lines 157-159). -/
structure Tally where
  total_files : Nat
  total_assets : Nat
  rewritten_files : Nat
deriving Repr, DecidableEq

/-- Model of the per-file loop of `cache_rmb_assets.run`
(lines 161-172); file discovery is out-of-scope I/O, so the sorted HTML
file list is a parameter.  An uncaught `RuntimeError` from
`rewrite_file` aborts the loop: remaining files are not processed. -/
def runCache (fetch : String → FetchOutcome) (root : List String) (force dry : Bool) :
    List (List String) → RunState → Option String × RunState × Tally
  | [], st => (none, st, ⟨0, 0, 0⟩)
  | f :: rest, st =>
    match rewrite_file fetch f root force dry st with
    | (some e, _, _, st1) => (some e, st1, ⟨0, 0, 0⟩)
    | (none, changed, count, st1) =>
      let r := runCache fetch root force dry rest st1
      (r.1, r.2.1,
        ⟨(if count ≠ 0 then 1 else 0) + r.2.2.total_files,
         count + r.2.2.total_assets,
         (if count ≠ 0 && changed then 1 else 0) + r.2.2.rewritten_files⟩)

/-! The single-page script `download_assets.py`: content-type extension
inference, fetcher with skip-existing, and the resolver loop. -/

/-- Model of Python `s.strip()` (ASCII whitespace). -/
def pyStrip (s : String) : String :=
  String.mk ((s.data.dropWhile isAsciiSpace).reverse.dropWhile isAsciiSpace).reverse

/-- Model of Python `s.startswith(pre)`. -/
def pyStartsWith (s pre : String) : Bool :=
  pre.data.isPrefixOf s.data

/-- Name (final segment) of a path in segment form. -/
def segName (p : List String) : String := p.getLastD ""

/-- Model of `pathlib.Path.suffix`: the part of the name from its last
dot, empty when that dot is leading, trailing or absent. -/
def pySuffix (name : String) : String :=
  match name.data.reverse.findIdx? (fun c => c = '.') with
  | some j =>
    let i := name.data.length - 1 - j
    if 0 < i ∧ i < name.data.length - 1 then String.mk (name.data.drop i) else ""
  | none => ""

/-- Model of `pathlib.Path.with_suffix` on a path in segment form
(callers here always have a nonempty final segment, for which Python
would not raise). -/
def pyWithSuffix (p : List String) (suffix : String) : List String :=
  let name := segName p
  let stem := String.mk (name.data.take (name.data.length - (pySuffix name).data.length))
  p.dropLast ++ [stem ++ suffix]

/-- Model of `download_assets.infer_extension` (lines 130-146): keep an
extension already on the destination, else map the declared content type
through the fixed table. -/
def infer_extension (content_type : String) (destination : List String) : Option String :=
  let ct := pyLower (pyStrip (takeBeforeChar ';' content_type))
  if pySuffix (segName destination) ≠ "" then some (pySuffix (segName destination))
  else if ct = "image/svg+xml" then some ".svg"
  else if ct = "image/png" then some ".png"
  else if ct = "image/jpeg" ∨ ct = "image/jpg" then some ".jpg"
  else if ct = "image/gif" then some ".gif"
  else if ct = "image/webp" then some ".webp"
  else if ct = "image/avif" then some ".avif"
  else none

/-- Outcome of one `requests.get`, supplied by a network oracle keyed on
the asset URL. -/
inductive ReqOutcome where
  | resp (status : Nat) (contentType : String) (body : String)
  | reqErr (msg : String)
deriving Repr, DecidableEq

/-- Exceptions `resolve_assets` catches: `requests.HTTPError` (from
`raise_for_status`) and other `requests.RequestException`s. -/
inductive ReqError where
  | httpError (status : Nat)
  | requestException (msg : String)
deriving Repr, DecidableEq

/-- Observable effects of `download_asset`: issuing the GET, streaming
the response body, writing the destination file. -/
inductive Effect where
  | get (url : String)
  | readBody (url : String)
  | write (path : List String)
deriving Repr, DecidableEq

/-- Final destination of `download_asset` (lines 157-158):
`destination.with_suffix(ext) if ext else destination`. -/
def inferredDestination (content_type : String) (destination : List String) : List String :=
  match infer_extension content_type destination with
  | some e => pyWithSuffix destination e
  | none => destination

/-- Model of `requests.Session.get_adapter`: the default session mounts
transport adapters only for `http://` and `https://`, so a URL of any
other scheme has no adapter.  (requests checks the lowercased URL
prefix; for the well-formed absolute URLs the resolver produces — a
scheme followed by `://netloc` — that is equivalent to the parsed scheme
being `http` or `https`.) -/
def hasHttpAdapter (url : String) : Bool :=
  (urlparse url).scheme == "http" || (urlparse url).scheme == "https"

/-- A network oracle realizable by `requests.get`: for a URL with no
mounted adapter, `get_adapter` deterministically raises `InvalidSchema`
(a `RequestException` subclass) before any network I/O — the oracle
cannot return a response there. -/
def requestsRealizable (http : String → ReqOutcome) : Prop :=
  ∀ url, hasHttpAdapter url = false → http url = .reqErr "InvalidSchema"

/-- Model of `download_assets.download_asset` (lines 149-173): GET the
URL (streaming, so the body is not read yet), raise for an error status,
infer the final destination, report `(final, false)` without reading the
body when the file exists and overwrite is off, else stream the body to
the final destination.  A `RequestException` for a URL with no mounted
adapter is `InvalidSchema`, raised inside `get_adapter` before any
network I/O, so no request effect is recorded there; for an adapterful
URL a transport error still reflects an attempted request.  (The skip
branch's log line computes a path relative to the repo root; printing is
out of scope and the theorems only use repo-rooted destinations, where
it cannot raise.) -/
def download_asset (http : String → ReqOutcome) (asset_url : String)
    (destination : List String) (overwrite : Bool) (fs : Fs) :
    Except ReqError (List String × Bool) × Fs × List Effect :=
  match http asset_url with
  | .reqErr m => (.error (.requestException m), fs,
      if hasHttpAdapter asset_url then [.get asset_url] else [])
  | .resp status ct body =>
    if 400 ≤ status then (.error (.httpError status), fs, [.get asset_url])
    else
      let final_destination := inferredDestination ct destination
      if fsContains fs final_destination && !overwrite then
        (.ok (final_destination, false), fs, [.get asset_url])
      else
        (.ok (final_destination, true), fsWrite fs final_destination body,
         [.get asset_url, .readBody asset_url, .write final_destination])

/-- Schemes treated as relative-capable by `urllib.parse.urljoin`. -/
def uses_relative : List String :=
  ["", "ftp", "http", "gopher", "nntp", "imap", "wais", "file", "https",
   "shttp", "mms", "prospero", "rtsp", "rtspu", "sftp", "svn", "svn+ssh", "ws", "wss"]

/-- Schemes that use a network location, per `urllib.parse`. -/
def uses_netloc : List String :=
  ["", "ftp", "http", "gopher", "nntp", "telnet", "imap", "wais", "file",
   "mms", "https", "shttp", "snews", "prospero", "rtsp", "rtspu", "rsync",
   "svn", "svn+ssh", "sftp", "nfs", "git", "git+ssh", "ws", "wss", "itms-services"]

/-- Middle-segment cleanup of `urljoin`:
`segments[1:-1] = filter(None, segments[1:-1])`. -/
def filterMiddle (segs : List String) : List String :=
  match segs with
  | [] => []
  | fst :: rest =>
    match rest.getLast? with
    | none => [fst]
    | some lastSeg => fst :: (rest.dropLast.filter (fun s => s ≠ "") ++ [lastSeg])

/-- Dot-segment resolution of `urljoin` (append, with `..` popping and
`.` skipped; popping an empty stack is a no-op). -/
def resolveDotSegments (segs : List String) : List String :=
  segs.foldl
    (fun acc seg =>
      if seg = ".." then acc.dropLast
      else if seg = "." then acc
      else acc ++ [seg]) []

/-- Model of `urllib.parse.urljoin` (CPython algorithm: scheme gate,
netloc gate, empty-path inheritance, then relative-path merging with
dot-segment resolution). -/
def urljoin (base url : String) : String :=
  if base = "" then url
  else if url = "" then base
  else
    let b := urlparseD base ""
    let u := urlparseD url b.scheme
    if u.scheme ≠ b.scheme ∨ !(uses_relative.contains u.scheme) then url
    else if uses_netloc.contains u.scheme && u.netloc ≠ "" then urlunparse u
    else
      let netloc := if uses_netloc.contains u.scheme then b.netloc else u.netloc
      if u.path = "" ∧ u.params = "" then
        urlunparse { u with
            netloc := netloc, path := b.path, params := b.params,
            query := (if u.query = "" then b.query else u.query) }
      else
        let base_parts := splitChar '/' b.path
        let base_parts := if base_parts.getLastD "" ≠ "" then base_parts.dropLast else base_parts
        let segments :=
          if u.path.data.take 1 = ['/'] then splitChar '/' u.path
          else filterMiddle (base_parts ++ splitChar '/' u.path)
        let resolved := resolveDotSegments segments
        let resolved :=
          if segments.getLastD "" = "." ∨ segments.getLastD "" = ".." then resolved ++ [""]
          else resolved
        let path := String.intercalate "/" resolved
        urlunparse { u with netloc := netloc, path := (if path = "" then "/" else path) }

/-- Model of `pathlib.Path.resolve()` on an already-absolute segment
path with no symlinks: lexical normalization. -/
def resolvePath (segs : List String) : List String :=
  segs.foldl
    (fun acc s =>
      if s = ".." then acc.dropLast
      else if s = "." ∨ s = "" then acc
      else acc ++ [s]) []

/-- Model of `Path.relative_to` (raises `ValueError`, here `none`, when
`root` is not a prefix). -/
def relativeTo (p root : List String) : Option (List String) :=
  if root.isPrefixOf p then some (p.drop root.length) else none

/-- State of one `resolve_assets` run: the returned mapping, the `seen`
dedup dictionary (URL to repo-relative path), the two counters, the
filesystem, and the observable network/disk effects. -/
structure ResolveState where
  mapping : List (String × List String)
  seen : List (String × List String)
  downloaded : Nat
  skipped : Nat
  fs : Fs
  effects : List Effect
deriving Repr, DecidableEq

/-- Relative-path stage of the `resolve_assets` loop (lines 195-204):
map the URL path (or, for an empty path, the netloc) through the Path
Mapper, then drop a leading segment that duplicates the output
directory's own name. -/
def resolveRelativePath (asset_url : String) (output_dir : List String) : List String :=
  let parsed := urlparse asset_url
  let relative_path :=
    build_relative_asset_path (if parsed.path ≠ "" then parsed.path else parsed.netloc)
  let output_root := segName output_dir
  if output_root ≠ "" ∧ output_root ≠ "." ∧ output_root ≠ "/"
      ∧ 1 < relative_path.length
      ∧ pyLower (relative_path.headD "") = pyLower output_root then
    relative_path.tail
  else relative_path

/-- Destination of one resolved asset (lines 195-206): the mapped
relative path with a duplicated output-root segment dropped, resolved
beneath the output directory. -/
def resolveDestination (asset_url : String) (output_dir : List String) : List String :=
  resolvePath (output_dir ++ resolveRelativePath asset_url output_dir)

/-- One iteration of the `resolve_assets` loop (lines 187-230): reject
non-`http*` schemes, skip already-seen URLs unless overwriting, then
download into the resolved destination and classify the outcome.  The
returned `Option String` is a propagated exception (only the
`relative_to` `ValueError`, which no catch covers). -/
def resolveStep (http : String → ReqOutcome) (page_url : String)
    (output_dir repo_root : List String) (overwrite : Bool) (src : String)
    (st : ResolveState) : Option String × ResolveState :=
  let asset_url := urljoin page_url src
  let parsed := urlparse asset_url
  if !(pyStartsWith parsed.scheme "http") then
    (none, { st with skipped := st.skipped + 1 })
  else
    let destination := resolveDestination asset_url output_dir
    if st.seen.any (fun e => e.1 == asset_url) && !overwrite then
      (none, { st with skipped := st.skipped + 1 })
    else
      let r := download_asset http asset_url destination overwrite st.fs
      let st1 : ResolveState := { st with fs := r.2.1, effects := st.effects ++ r.2.2 }
      match r.1 with
      | .ok (final_destination, was_downloaded) =>
        match relativeTo final_destination repo_root with
        | some rel =>
          (none,
           { st1 with
               downloaded := st1.downloaded + (if was_downloaded then 1 else 0),
               skipped := st1.skipped + (if was_downloaded then 0 else 1),
               seen := st1.seen ++ [(asset_url, rel)],
               mapping := st1.mapping ++ [(asset_url, final_destination)] })
        | none => (some "ValueError: path not relative to repo root", st1)
      | .error (.httpError _) => (none, { st1 with skipped := st1.skipped + 1 })
      | .error (.requestException _) => (none, { st1 with skipped := st1.skipped + 1 })

/-- The `resolve_assets` loop over sources; a propagated exception
aborts the loop, keeping the state mutated so far. -/
def resolveAssetsFrom (http : String → ReqOutcome) (page_url : String)
    (output_dir repo_root : List String) (overwrite : Bool) :
    List String → ResolveState → Option String × ResolveState
  | [], st => (none, st)
  | src :: rest, st =>
    match resolveStep http page_url output_dir repo_root overwrite src st with
    | (some e, st1) => (some e, st1)
    | (none, st1) => resolveAssetsFrom http page_url output_dir repo_root overwrite rest st1

/-- Model of `download_assets.resolve_assets` (lines 176-232), from the
empty initial state over the given filesystem. -/
def resolve_assets (http : String → ReqOutcome) (page_url : String)
    (sources : List String) (output_dir repo_root : List String)
    (overwrite : Bool) (fs : Fs) : Option String × ResolveState :=
  resolveAssetsFrom http page_url output_dir repo_root overwrite sources ⟨[], [], 0, 0, fs, []⟩

/-- Occurrences of a URL in a list (used to state at-most-once-download
properties). -/
def countOccur (u : String) (l : List String) : Nat :=
  (l.filter (fun v => v == u)).length

/-- Occurrences of `Effect.get u` in an effect trace. -/
def countGets (u : String) (l : List Effect) : Nat :=
  (l.filter (fun e => e == Effect.get u)).length

/-- A parsed HTML document as `wire_assets_into_html` observes it: the
`src` attributes of its `<img>` tags in document order (`none` for an
`<img>` without a `src`).  BeautifulSoup's parse and serialize are
external collaborators; the function reads and writes nothing of the
document but these attributes. -/
abbrev SoupDoc := List (Option String)

/-- Model of `dict.get` on the asset map (keys are unique, so the first
matching entry is the binding). -/
def lookupMap (m : List (String × List String)) (k : String) : Option (List String) :=
  (m.find? (fun e => e.1 == k)).map (fun e => e.2)

/-- Longest common prefix length of two segment lists (helper for
`os.path.relpath`). -/
def commonPrefixLen : List String → List String → Nat
  | a :: as, b :: bs => if a = b then commonPrefixLen as bs + 1 else 0
  | _, _ => 0

/-- Model of `os.path.relpath(p, base).replace(os.sep, "/")` on segment
paths: strip the common prefix, one `..` per remaining base segment,
then the rest of `p` (line 267's fallback). -/
def osRelpath (p base : List String) : String :=
  let k := commonPrefixLen p base
  let parts := List.replicate (base.length - k) ".." ++ p.drop k
  if parts = [] then "." else String.intercalate "/" parts

/-- The replacement value computed for one mapped asset (lines 264-267):
`"/" + local_path.relative_to(REPO_ROOT).as_posix()`, falling back to a
path relative to the HTML file's directory when `local_path` is not
under the repo root. -/
def webPathOf (repo_root html_dir : List String) (local_path : List String) : String :=
  match relativeTo local_path repo_root with
  | some rel => "/" ++ String.intercalate "/" rel
  | none => osRelpath local_path html_dir

/-- One `<img>` of the `wire_assets_into_html` loop (lines 255-271):
skip a missing or empty `src`, resolve the stripped value against the
page URL, look it up in the asset map, and set the attribute to the
computed web path only when the current value differs.  Returns the new
`src` and whether it was changed. -/
def wireOne (page_url : String) (asset_map : List (String × List String))
    (repo_root html_dir : List String) (src : Option String) : Option String × Bool :=
  match src with
  | none => (none, false)
  | some s =>
    if s = "" then (some s, false)
    else
      match lookupMap asset_map (urljoin page_url (pyStrip s)) with
      | none => (some s, false)
      | some local_path =>
        let web_path := webPathOf repo_root html_dir local_path
        if s ≠ web_path then (some web_path, true) else (some s, false)

/-- Model of `download_assets.wire_assets_into_html` (lines 245-277) on
an existing file's parsed document: rewrite each `<img>` `src` via
`wireOne` and accumulate the `updated` flag; the file is written back
(re-serialized) exactly when the flag is true (line 273). -/
def wire_assets_into_html (page_url : String) (asset_map : List (String × List String))
    (repo_root html_dir : List String) : SoupDoc → SoupDoc × Bool
  | [] => ([], false)
  | src :: rest =>
    let r := wireOne page_url asset_map repo_root html_dir src
    let t := wire_assets_into_html page_url asset_map repo_root html_dir rest
    (r.1 :: t.1, r.2 || t.2)

/-- An asset map is stable for a page when no replacement value it can
produce resolves (via `urljoin` against the page URL) back to a key of
the map bound to a different replacement.  Maps whose web paths resolve
outside the key set — the normal case: keys are remote asset URLs,
web paths are local absolute paths resolving to page-host URLs — are
stable vacuously. -/
def stableAssetMap (page_url : String) (asset_map : List (String × List String))
    (repo_root html_dir : List String) : Prop :=
  ∀ e ∈ asset_map, ∀ e2 ∈ asset_map,
    urljoin page_url (pyStrip (webPathOf repo_root html_dir e.2)) = e2.1 →
    webPathOf repo_root html_dir e2.2 = webPathOf repo_root html_dir e.2

/-! Theorems. -/

/-- The base fed to sanitization is never empty (line 96's fallback). -/
theorem filenameBaseStage_ne_empty (raw_name : String) :
    filenameBaseStage raw_name ≠ "" := by
  unfold filenameBaseStage
  by_cases h : pyPathName (filenameNameStage raw_name) = "" <;> simp [h]

/-- Character-wise sanitization preserves nonemptiness. -/
theorem sanitizeBase_ne_empty (base : String) (h : base ≠ "") :
    sanitizeBase base ≠ "" := by
  unfold sanitizeBase
  intro hc
  apply h
  cases base with
  | mk l =>
    cases l with
    | nil => rfl
    | cons a t => simp [String.ext_iff] at hc

/-- The `or md5` fallback of `sanitize_filename` is dead code: the
sanitized base always has the length of the (nonempty) base, so the
result is the character-mapped base itself. -/
theorem sanitize_filename_md5_unreachable (raw_name : String) :
    sanitize_filename raw_name = sanitizeBase (filenameBaseStage raw_name) := by
  unfold sanitize_filename
  exact if_neg (sanitizeBase_ne_empty _ (filenameBaseStage_ne_empty raw_name))

/-- C1: the claim that `build_relative_asset_path` output never contains
a `..` segment fails on the spec's own named adversarial input: the
percent-encoded traversal `"%2e%2e"` decodes to `".."`, which
`sanitize_filename` returns unchanged (both characters are in its safe
set and `pathlib.Path("..").name` is `".."`).  A doubly-encoded final
segment reaches the same filename behind a directory. -/
theorem c1_traversal_failing_input :
    build_relative_asset_path "%2e%2e" = [".."] ∧
    build_relative_asset_path "a/%252e%252e" = ["a", ".."] := by
  constructor <;> rfl

/-- C7 (counterexample): for the path `assets/x/assets/y/f.png` the
segment list contains a non-final segment equal to "assets" at position
2 (not the very first), so the claim requires dropping everything before
it (result `["assets", "y", "f.png"]`); the code only considers the
FIRST occurrence, which is at position 0, and Python's
`if assets_index and ...` treats 0 as falsy, so nothing is dropped. -/
theorem c7_counterexample :
    build_relative_asset_path "assets/x/assets/y/f.png"
        = ["assets", "x", "assets", "y", "f.png"] ∧
    build_relative_asset_path "assets/x/assets/y/f.png"
        ≠ ["assets", "y", "f.png"] := by
  constructor
  · rfl
  · decide

/-- C7 (amended): only the first non-final segment case-insensitively
equal to "assets" is consulted.  If it sits at a positive index the
output is the sanitized suffix from that index; if it is the very first
segment, or no non-final segment matches, nothing is dropped. -/
theorem c7_first_assets_drop (raw : String) :
    (∀ i : Nat, firstAssetsIdx (rawAssetParts raw) = some i → 0 < i →
      build_relative_asset_path raw = sanitizeParts ((rawAssetParts raw).drop i)) ∧
    (firstAssetsIdx (rawAssetParts raw) = some 0 ∨ firstAssetsIdx (rawAssetParts raw) = none →
      build_relative_asset_path raw = sanitizeParts (rawAssetParts raw)) := by
  constructor
  · intro i hi hpos
    unfold build_relative_asset_path dropBeforeAssets
    rw [hi]
    simp [hpos]
  · intro h
    unfold build_relative_asset_path dropBeforeAssets
    rcases h with h | h <;> rw [h] <;> simp

/-- Witness for `c7_first_assets_drop` at the concrete path
`x/assets/y/f.png`, whose first non-final "assets" segment is at
index 1. -/
theorem c7_first_assets_drop_witness :
    build_relative_asset_path "x/assets/y/f.png"
      = sanitizeParts ((rawAssetParts "x/assets/y/f.png").drop 1) :=
  (c7_first_assets_drop "x/assets/y/f.png").1 1 (by decide) (by decide)

/-- If the first `k` candidates fail with non-404 errors and candidate
`k` succeeds, the loop downloads with candidate `k` and requests exactly
the first `k + 1` candidates. -/
theorem attemptDownload_first_success (fetch : String → FetchOutcome) (url : String)
    (destination : List String) (body : String) :
    ∀ (cs : List String) (k : Nat) (fs : Fs) (lastExc : Option FetchOutcome) (c : String),
      (∀ u ∈ cs.take k, isNon404Failure (fetch u)) → cs.get? k = some c →
      fetch c = .ok body →
      attemptDownload fetch url destination fs cs lastExc
        = (.ok true, fsWrite fs destination body, cs.take (k + 1)) := by
  intro cs
  induction cs with
  | nil => intro k fs lastExc c _ hk; simp at hk
  | cons a rest ih =>
    intro k fs lastExc c hfail hk hc
    cases k with
    | zero =>
      simp at hk
      subst hk
      simp [attemptDownload, hc]
    | succ k' =>
      have ha : isNon404Failure (fetch a) := hfail a (by simp)
      have hrest : ∀ u ∈ rest.take k', isNon404Failure (fetch u) := by
        intro u hu
        exact hfail u (by simp [hu])
      have hk' : rest.get? k' = some c := by simpa using hk
      cases hfa : fetch a with
      | ok b => rw [hfa] at ha; simp [isNon404Failure] at ha
      | httpErr code =>
        rw [hfa] at ha
        have hcode : code ≠ 404 := ha
        have hrec := ih k' fs (some (.httpErr code)) c hrest hk' hc
        simp [attemptDownload, hfa, hcode, hrec]
      | urlErr m =>
        have hrec := ih k' fs (some (.urlErr m)) c hrest hk' hc
        simp [attemptDownload, hfa, hrec]

/-- If the first `k` candidates fail with non-404 errors and candidate
`k` responds 404, the loop raises Missing at once, leaves the filesystem
unchanged, and requests exactly the first `k + 1` candidates. -/
theorem attemptDownload_first_404 (fetch : String → FetchOutcome) (url : String)
    (destination : List String) :
    ∀ (cs : List String) (k : Nat) (fs : Fs) (lastExc : Option FetchOutcome) (c : String),
      (∀ u ∈ cs.take k, isNon404Failure (fetch u)) → cs.get? k = some c →
      fetch c = .httpErr 404 →
      attemptDownload fetch url destination fs cs lastExc
        = (.error (.missing url), fs, cs.take (k + 1)) := by
  intro cs
  induction cs with
  | nil => intro k fs lastExc c _ hk; simp at hk
  | cons a rest ih =>
    intro k fs lastExc c hfail hk hc
    cases k with
    | zero =>
      simp at hk
      subst hk
      simp [attemptDownload, hc]
    | succ k' =>
      have ha : isNon404Failure (fetch a) := hfail a (by simp)
      have hrest : ∀ u ∈ rest.take k', isNon404Failure (fetch u) := by
        intro u hu
        exact hfail u (by simp [hu])
      have hk' : rest.get? k' = some c := by simpa using hk
      cases hfa : fetch a with
      | ok b => rw [hfa] at ha; simp [isNon404Failure] at ha
      | httpErr code =>
        rw [hfa] at ha
        have hcode : code ≠ 404 := ha
        have hrec := ih k' fs (some (.httpErr code)) c hrest hk' hc
        simp [attemptDownload, hfa, hcode, hrec]
      | urlErr m =>
        have hrec := ih k' fs (some (.urlErr m)) c hrest hk' hc
        simp [attemptDownload, hfa, hrec]

/-- C8: the fetcher attempts encoding variants in exactly the specified
order — `candidateUrls` (built as the source builds them, with the
query stripped only on the final variant) coincides with the
spec-described list `specVariantUrls` — and, when the destination is
absent or force is on, the download succeeds with the first variant that
downloads, requesting no variant beyond it. -/
theorem c8_variant_order_and_first_success (url : String) :
    candidateUrls url = specVariantUrls url ∧
    (∀ (fetch : String → FetchOutcome) (destination : List String) (fs : Fs)
        (force : Bool) (k : Nat) (c body : String),
      (fsContains fs destination = false ∨ force = true) →
      (∀ u ∈ (candidateUrls url).take k, isNon404Failure (fetch u)) →
      (candidateUrls url).get? k = some c → fetch c = .ok body →
      download_remote_file fetch url destination force fs
        = (.ok true, fsWrite fs destination body, (candidateUrls url).take (k + 1))) := by
  constructor
  · unfold candidateUrls specVariantUrls path_variants
    by_cases hc : ':' ∈ (urlparse url).path.data <;>
      by_cases hq : (urlparse url).query = "" <;>
        simp [hc, hq, enumerateCandidates]
  · intro fetch destination fs force k c body hfree hfail hk hcok
    have hguard : (fsContains fs destination && !force) = false := by
      rcases hfree with h | h <;> simp [h]
    unfold download_remote_file
    rw [hguard]
    simpa using
      attemptDownload_first_success fetch url destination body _ k fs none c hfail hk hcok

/-- Sanity check of the variant list against CPython's output for a URL
with both a `:` in the path and a query string. -/
example :
    candidateUrls "https://cdn-assets-eu.frontify.com/a:b c.png?x=1"
      = ["https://cdn-assets-eu.frontify.com/a:b%20c.png?x=1",
         "https://cdn-assets-eu.frontify.com/a%3Ab%20c.png?x=1",
         "https://cdn-assets-eu.frontify.com/a:b%20c.png"] := by
  rfl

/-- The attempt loop leaves the filesystem unchanged unless it returns
a successful download. -/
theorem attemptDownload_fs_cases (fetch : String → FetchOutcome) (url : String)
    (destination : List String) (fs : Fs) :
    ∀ (cs : List String) (lastExc : Option FetchOutcome),
      (attemptDownload fetch url destination fs cs lastExc).2.1 = fs ∨
      (attemptDownload fetch url destination fs cs lastExc).1 = .ok true := by
  intro cs
  induction cs with
  | nil => intro lastExc; left; rfl
  | cons a rest ih =>
    intro lastExc
    cases hfa : fetch a with
    | ok b => right; simp [attemptDownload, hfa]
    | httpErr code =>
      by_cases hcode : code = 404
      · subst hcode; left; simp [attemptDownload, hfa]
      · have := ih (some (.httpErr code))
        rcases this with h | h
        · left; simpa [attemptDownload, hfa, hcode] using h
        · right; simpa [attemptDownload, hfa, hcode] using h
    | urlErr m =>
      have := ih (some (.urlErr m))
      rcases this with h | h
      · left; simpa [attemptDownload, hfa] using h
      · right; simpa [attemptDownload, hfa] using h

/-- An erroring `download_remote_file` call leaves the filesystem
unchanged. -/
theorem download_remote_file_error_fs (fetch : String → FetchOutcome) (url : String)
    (destination : List String) (force : Bool) (fs fs' : Fs) (e : DlError)
    (tr : List String)
    (h : download_remote_file fetch url destination force fs = (.error e, fs', tr)) :
    fs' = fs := by
  unfold download_remote_file at h
  by_cases hg : (fsContains fs destination && !force) = true
  · rw [if_pos hg] at h
    simp at h
  · rw [if_neg hg] at h
    have hc := attemptDownload_fs_cases fetch url destination fs (candidateUrls url) none
    rcases hc with hc | hc
    · rw [h] at hc; exact hc
    · rw [h] at hc; simp at hc

/-- A URL pass that yields neither an exception nor a replacement entry
(host-filtered, empty remote path, or a 404) preserves the filesystem
and the dedup ledger. -/
theorem processUrl_none_none_state (fetch : String → FetchOutcome)
    (file_path project_root : List String) (force dry : Bool) (u : String)
    (st st' : RunState)
    (h : processUrl fetch file_path project_root force dry u st = (none, none, st')) :
    st'.fs = st.fs ∧ st'.seen_urls = st.seen_urls := by
  unfold processUrl at h
  by_cases h1 : ASSET_HOSTS.contains (urlparse u).netloc = true
  · simp only [h1, Bool.not_true, Bool.false_eq_true, if_false] at h
    by_cases h2 : lstripChar '/' (urlparse u).path = ""
    · rw [if_pos h2] at h
      simp only [Prod.mk.injEq, true_and] at h
      cases h
      exact ⟨rfl, rfl⟩
    · rw [if_neg h2] at h
      by_cases h3 : (!dry && !(st.seen_urls.contains u)) = true
      · rw [if_pos h3] at h
        rcases hr : download_remote_file fetch u
            (project_root ++ localRelativeSegments (lstripChar '/' (urlparse u).path))
            force st.fs with ⟨r1, rfs, rtr⟩
        rw [hr] at h
        cases r1 with
        | ok v => simp at h
        | error e =>
          cases e with
          | missing m =>
            have hfs : rfs = st.fs :=
              download_remote_file_error_fs fetch u _ force st.fs rfs (.missing m) rtr hr
            simp only [Prod.mk.injEq, true_and] at h
            rw [← h]
            exact ⟨hfs, rfl⟩
          | runtime a b => simp at h
      · rw [if_neg h3] at h
        simp at h
  · have h1f : ASSET_HOSTS.contains (urlparse u).netloc = false :=
      Bool.eq_false_iff.mpr h1
    simp only [h1f, Bool.not_false, if_true] at h
    simp only [Prod.mk.injEq, true_and] at h
    cases h
    exact ⟨rfl, rfl⟩

/-- A `rewrite_file` pass that produces no replacement entries preserves
the filesystem and the dedup ledger across its whole URL loop. -/
theorem processUrls_no_entries_state (fetch : String → FetchOutcome)
    (file_path project_root : List String) (force dry : Bool) :
    ∀ (urls : List String) (st st' : RunState),
      processUrls fetch file_path project_root force dry urls st = (none, [], st') →
      st'.fs = st.fs ∧ st'.seen_urls = st.seen_urls := by
  intro urls
  induction urls with
  | nil =>
    intro st st' h
    simp [processUrls] at h
    rw [← h]
    exact ⟨rfl, rfl⟩
  | cons u rest ih =>
    intro st st' h
    rcases hp : processUrl fetch file_path project_root force dry u st with ⟨e1, entry, st1⟩
    cases e1 with
    | some e => simp [processUrls, hp] at h
    | none =>
      rcases hr : processUrls fetch file_path project_root force dry rest st1
        with ⟨e2, repls2, st2⟩
      simp only [processUrls, hp, hr] at h
      cases entry with
      | some x => simp at h
      | none =>
        simp only [Prod.mk.injEq] at h
        obtain ⟨he2, hrep, hst2⟩ := h
        have hstep := processUrl_none_none_state fetch file_path project_root force dry u st st1 hp
        have htail := ih st1 st' (by rw [hr, he2, hrep, hst2])
        exact ⟨htail.1.trans hstep.1, htail.2.trans hstep.2⟩

/-- C3 (counterexample): the Rewriter is not idempotent.  In the
document below a rewritten URL abuts a bare host name, so the first pass
manufactures a fresh remote-URL match; the second pass over the
already-rewritten file reports changed=true and alters the bytes again —
and even replaying the first pass's own replacement (the same asset
mapping) on the once-rewritten text changes it. -/
theorem c3_counterexample :
    (rewrite_file (fun _ => FetchOutcome.ok "IMG") ["root", "page.html"] ["root"] false false
        ⟨[], [], [(["root", "page.html"],
            "https://assets.rmb.co.zahttps://assets.rmb.co.za/assets/assets")], [], []⟩).2.1
      = true ∧
    fsRead (rewrite_file (fun _ => FetchOutcome.ok "IMG") ["root", "page.html"] ["root"]
        false false
        ⟨[], [], [(["root", "page.html"],
            "https://assets.rmb.co.zahttps://assets.rmb.co.za/assets/assets")], [], []⟩).2.2.2.fs
        ["root", "page.html"]
      = some "https://assets.rmb.co.za/assets/assets/assets" ∧
    (rewrite_file (fun _ => FetchOutcome.ok "IMG") ["root", "page.html"] ["root"] false false
        (rewrite_file (fun _ => FetchOutcome.ok "IMG") ["root", "page.html"] ["root"]
          false false
          ⟨[], [], [(["root", "page.html"],
              "https://assets.rmb.co.zahttps://assets.rmb.co.za/assets/assets")], [], []⟩).2.2.2).2.1
      = true ∧
    pyReplace "https://assets.rmb.co.za/assets/assets/assets"
        "https://assets.rmb.co.za/assets/assets" "/assets/assets/assets"
      ≠ "https://assets.rmb.co.za/assets/assets/assets" := by
  refine ⟨rfl, rfl, rfl, ?_⟩
  decide

/-- Write-back cases of the batch `rewrite_file`: a pass granting no
replacement reports changed=false and touches no byte; otherwise the
file is rewritten exactly when the sequential replacements change the
text and dry-run is off. -/
theorem rewrite_file_writeback_cases (fetch : String → FetchOutcome)
    (file_path project_root : List String) (force_download dry_run : Bool)
    (st st' : RunState) (repls : List (String × String))
    (hp : processUrls fetch file_path project_root force_download dry_run
            (uniqueUrlMatches ((fsRead st.fs file_path).getD "")) st
          = (none, repls, st')) :
    (repls = [] →
      rewrite_file fetch file_path project_root force_download dry_run st
          = (none, false, 0, st') ∧ st'.fs = st.fs) ∧
    (dry_run = false →
      applyReplacements repls ((fsRead st.fs file_path).getD "")
          ≠ (fsRead st.fs file_path).getD "" →
      rewrite_file fetch file_path project_root force_download dry_run st
        = (none, true, repls.length,
            { st' with
                fs := fsWrite st'.fs file_path
                  (applyReplacements repls ((fsRead st.fs file_path).getD "")) })) ∧
    ((dry_run = true ∨
        applyReplacements repls ((fsRead st.fs file_path).getD "")
          = (fsRead st.fs file_path).getD "") →
      rewrite_file fetch file_path project_root force_download dry_run st
        = (none, false, repls.length, st')) := by
  by_cases hM : (uniqueUrlMatches ((fsRead st.fs file_path).getD "")).isEmpty = true
  · have hMnil : uniqueUrlMatches ((fsRead st.fs file_path).getD "") = [] := by
      simpa [List.isEmpty_iff] using hM
    rw [hMnil] at hp
    simp only [processUrls] at hp
    injection hp with hp1 hp2
    injection hp2 with hrep hst
    subst hst
    subst hrep
    have hre : rewrite_file fetch file_path project_root force_download dry_run st
        = (none, false, 0, st) := by
      simp [rewrite_file, hMnil]
    exact ⟨fun _ => ⟨hre, rfl⟩, fun _ hne => absurd rfl hne, fun _ => by simpa using hre⟩
  · have hMne : (uniqueUrlMatches ((fsRead st.fs file_path).getD "")).isEmpty = false :=
      Bool.eq_false_iff.mpr hM
    refine ⟨fun hrep => ?_, fun hdry hne => ?_, fun hd => ?_⟩
    · constructor
      · subst hrep
        simp [rewrite_file, hMne, hp, applyReplacements]
      · exact (processUrls_no_entries_state fetch file_path project_root force_download
          dry_run _ st st' (by rw [hp, hrep])).1
    · have hbeq : (applyReplacements repls ((fsRead st.fs file_path).getD "")
          == (fsRead st.fs file_path).getD "") = false := by
        simpa using hne
      subst hdry
      simp [rewrite_file, hMne, hp, hbeq]
    · rcases hd with hd | hd
      · subst hd
        simp [rewrite_file, hMne, hp]
      · have hbeq : (applyReplacements repls ((fsRead st.fs file_path).getD "")
            == (fsRead st.fs file_path).getD "") = true := by
          simpa using hd
        simp [rewrite_file, hMne, hp, hbeq]

/-- A successful `dict.get` on the asset map exhibits the binding as a
member of the map. -/
theorem lookupMap_mem (m : List (String × List String)) (k : String)
    (lp : List String) (h : lookupMap m k = some lp) : (k, lp) ∈ m := by
  unfold lookupMap at h
  rcases hf : m.find? (fun e => e.1 == k) with _ | e
  · rw [hf] at h
    exact absurd h (by simp)
  · rw [hf] at h
    have hmem := List.mem_of_find?_eq_some hf
    have hpred := List.find?_some hf
    rcases e with ⟨k0, v0⟩
    have hk : k0 = k := by simpa using hpred
    have hv : v0 = lp := by simpa using h
    rw [← hk, ← hv]
    exact hmem

/-- One `<img>` is changed exactly when its new `src` differs from the
old one: the loop sets the attribute (and the `updated` flag) only
behind the `img["src"] != web_path` guard. -/
theorem wireOne_flag_iff (page_url : String) (asset_map : List (String × List String))
    (repo_root html_dir : List String) (src : Option String) :
    (wireOne page_url asset_map repo_root html_dir src).2 = true
      ↔ (wireOne page_url asset_map repo_root html_dir src).1 ≠ src := by
  unfold wireOne
  cases src with
  | none => simp
  | some s =>
    dsimp only
    by_cases hs : s = ""
    · rw [if_pos hs]
      simp
    · rw [if_neg hs]
      cases hlk : lookupMap asset_map (urljoin page_url (pyStrip s)) with
      | none =>
        dsimp only
        simp
      | some lp =>
        dsimp only
        by_cases hw : s ≠ webPathOf repo_root html_dir lp
        · rw [if_pos hw]
          simpa using Ne.symm hw
        · rw [if_neg hw]
          simp

/-- The document-level `updated` flag is true exactly when some `src`
attribute actually changed — so the file is written back (line 273) only
when at least one reference's value differs from its computed
replacement, and a changed=false pass leaves the document identical. -/
theorem wire_flag_iff (page_url : String) (asset_map : List (String × List String))
    (repo_root html_dir : List String) :
    ∀ doc : SoupDoc,
      (wire_assets_into_html page_url asset_map repo_root html_dir doc).2 = true
        ↔ (wire_assets_into_html page_url asset_map repo_root html_dir doc).1 ≠ doc := by
  intro doc
  induction doc with
  | nil => simp [wire_assets_into_html]
  | cons s rest ih =>
    simp only [wire_assets_into_html]
    rw [Bool.or_eq_true]
    constructor
    · rintro (h | h) hc
      · exact (wireOne_flag_iff page_url asset_map repo_root html_dir s).mp h
          (by injection hc)
      · exact (ih.mp h) (by injection hc with h1 h2)
    · intro h
      by_cases hr : (wireOne page_url asset_map repo_root html_dir s).2 = true
      · exact Or.inl hr
      · right
        have hr1 : (wireOne page_url asset_map repo_root html_dir s).1 = s :=
          not_not.mp (fun hne =>
            hr ((wireOne_flag_iff page_url asset_map repo_root html_dir s).mpr hne))
        apply ih.mpr
        intro hteq
        exact h (by rw [hr1, hteq])

/-- Under a stable asset map, a second pass of the per-`<img>` rewrite
is a no-op: an unchanged `src` recomputes to the same decision, and a
rewritten one either resolves outside the map's keys or — by stability —
back to its own replacement value. -/
theorem wireOne_second_pass (page_url : String) (asset_map : List (String × List String))
    (repo_root html_dir : List String)
    (hstable : stableAssetMap page_url asset_map repo_root html_dir) (src : Option String) :
    wireOne page_url asset_map repo_root html_dir
        (wireOne page_url asset_map repo_root html_dir src).1
      = ((wireOne page_url asset_map repo_root html_dir src).1, false) := by
  rcases src with _ | s
  · rfl
  · by_cases hs : s = ""
    · subst hs
      rfl
    · cases hlk : lookupMap asset_map (urljoin page_url (pyStrip s)) with
      | none =>
        have h1 : wireOne page_url asset_map repo_root html_dir (some s) = (some s, false) := by
          unfold wireOne
          dsimp only
          rw [if_neg hs, hlk]
        rw [h1]
        exact h1
      | some lp =>
        by_cases hsw : s ≠ webPathOf repo_root html_dir lp
        · have h1 : wireOne page_url asset_map repo_root html_dir (some s)
              = (some (webPathOf repo_root html_dir lp), true) := by
            unfold wireOne
            dsimp only
            rw [if_neg hs, hlk]
            dsimp only
            rw [if_pos hsw]
          rw [h1]
          unfold wireOne
          dsimp only
          by_cases hw0 : webPathOf repo_root html_dir lp = ""
          · rw [if_pos hw0]
          · rw [if_neg hw0]
            cases hlk2 : lookupMap asset_map
                (urljoin page_url (pyStrip (webPathOf repo_root html_dir lp))) with
            | none => rfl
            | some lp2 =>
              dsimp only
              have hmem1 := lookupMap_mem _ _ _ hlk
              have hmem2 := lookupMap_mem _ _ _ hlk2
              have heq : webPathOf repo_root html_dir lp2 = webPathOf repo_root html_dir lp :=
                hstable _ hmem1 _ hmem2 (by dsimp only)
              rw [heq]
              rw [if_neg (fun hc => hc rfl)]
        · have h1 : wireOne page_url asset_map repo_root html_dir (some s) = (some s, false) := by
            unfold wireOne
            dsimp only
            rw [if_neg hs, hlk]
            dsimp only
            rw [if_neg hsw]
          rw [h1]
          exact h1

/-- Under a stable asset map, a second structural-rewriter pass over the
already-rewritten document changes nothing and reports changed=false. -/
theorem wire_second_pass (page_url : String) (asset_map : List (String × List String))
    (repo_root html_dir : List String)
    (hstable : stableAssetMap page_url asset_map repo_root html_dir) :
    ∀ doc : SoupDoc,
      wire_assets_into_html page_url asset_map repo_root html_dir
          (wire_assets_into_html page_url asset_map repo_root html_dir doc).1
        = ((wire_assets_into_html page_url asset_map repo_root html_dir doc).1, false) := by
  intro doc
  induction doc with
  | nil => rfl
  | cons s rest ih =>
    simp only [wire_assets_into_html]
    rw [wireOne_second_pass page_url asset_map repo_root html_dir hstable s, ih]
    rfl

/-- C3: write-back discipline and idempotence of both rewriters.  The
batch `rewrite_file` (cache_rmb_assets.py 96-146): a pass granting no
replacement reports changed=false, touches no byte, and preserves the
ledger — so it is idempotent on every document whose scan produces no
replacement entry, in particular an already-rewritten document without a
manufactured remote-URL match (the counterexample shows a replacement
abutting host text can manufacture one) — and in general the file is
written back exactly when the sequential replacements change the text
and dry-run is off.  The structural `wire_assets_into_html`
(download_assets.py 245-277): an `<img>` `src` is rewritten only when
its current value differs from the computed replacement, the document
changes (and the file is written back) exactly when the `updated` flag
is set, and a second pass with the same asset map is a no-op whenever
the map is stable — no replacement value resolves back to a key of the
map bound to a different replacement, which holds in particular when
replacement values resolve outside the map's keys. -/
theorem c3_rewrite_idempotent_and_writeback :
    (∀ (fetch : String → FetchOutcome) (file_path project_root : List String)
        (force_download dry_run : Bool) (st st' : RunState)
        (repls : List (String × String)),
      processUrls fetch file_path project_root force_download dry_run
          (uniqueUrlMatches ((fsRead st.fs file_path).getD "")) st
        = (none, repls, st') →
      ((repls = [] →
        rewrite_file fetch file_path project_root force_download dry_run st
            = (none, false, 0, st') ∧ st'.fs = st.fs) ∧
       (dry_run = false →
        applyReplacements repls ((fsRead st.fs file_path).getD "")
            ≠ (fsRead st.fs file_path).getD "" →
        rewrite_file fetch file_path project_root force_download dry_run st
          = (none, true, repls.length,
              { st' with
                  fs := fsWrite st'.fs file_path
                    (applyReplacements repls ((fsRead st.fs file_path).getD "")) })) ∧
       ((dry_run = true ∨
          applyReplacements repls ((fsRead st.fs file_path).getD "")
            = (fsRead st.fs file_path).getD "") →
        rewrite_file fetch file_path project_root force_download dry_run st
          = (none, false, repls.length, st')))) ∧
    (∀ (page_url : String) (asset_map : List (String × List String))
        (repo_root html_dir : List String) (doc : SoupDoc),
      (wire_assets_into_html page_url asset_map repo_root html_dir doc).2 = true
        ↔ (wire_assets_into_html page_url asset_map repo_root html_dir doc).1 ≠ doc) ∧
    (∀ (page_url : String) (asset_map : List (String × List String))
        (repo_root html_dir : List String) (doc : SoupDoc),
      stableAssetMap page_url asset_map repo_root html_dir →
      wire_assets_into_html page_url asset_map repo_root html_dir
          (wire_assets_into_html page_url asset_map repo_root html_dir doc).1
        = ((wire_assets_into_html page_url asset_map repo_root html_dir doc).1, false)) := by
  refine ⟨?_, ?_, ?_⟩
  · intro fetch file_path project_root force_download dry_run st st' repls hp
    exact rewrite_file_writeback_cases fetch file_path project_root force_download dry_run
      st st' repls hp
  · intro page_url asset_map repo_root html_dir doc
    exact wire_flag_iff page_url asset_map repo_root html_dir doc
  · intro page_url asset_map repo_root html_dir doc hstable
    exact wire_second_pass page_url asset_map repo_root html_dir hstable doc

/-- Witness for `c3_rewrite_idempotent_and_writeback`: a document whose
only reference 404s obtains no replacement, so the batch rewriter
reports changed=false with the file bytes untouched; and a second
structural pass over a one-image document rewritten against a concrete
stable asset map changes nothing and reports changed=false. -/
theorem c3_rewrite_idempotent_and_writeback_witness :
    (rewrite_file (fun _ => FetchOutcome.httpErr 404) ["root", "p.html"] ["root"] false false
        ⟨[], [], [(["root", "p.html"], "https://assets.rmb.co.za/gone.png")], [], []⟩
      = (none, false, 0,
         ⟨[], [(["root", "p.html"], "https://assets.rmb.co.za/gone.png")],
          [(["root", "p.html"], "https://assets.rmb.co.za/gone.png")],
          ["https://assets.rmb.co.za/gone.png"], ["https://assets.rmb.co.za/gone.png"]⟩)) ∧
    wire_assets_into_html "http://h/p.html"
        [("https://assets.rmb.co.za/img/logo.png",
          ["repo", "ChinaRMBSite", "assets", "img", "logo.png"])]
        ["repo"] ["repo", "ChinaRMBSite"]
        (wire_assets_into_html "http://h/p.html"
          [("https://assets.rmb.co.za/img/logo.png",
            ["repo", "ChinaRMBSite", "assets", "img", "logo.png"])]
          ["repo"] ["repo", "ChinaRMBSite"]
          [some "https://assets.rmb.co.za/img/logo.png", none]).1
      = ((wire_assets_into_html "http://h/p.html"
          [("https://assets.rmb.co.za/img/logo.png",
            ["repo", "ChinaRMBSite", "assets", "img", "logo.png"])]
          ["repo"] ["repo", "ChinaRMBSite"]
          [some "https://assets.rmb.co.za/img/logo.png", none]).1, false) := by
  constructor
  · exact ((c3_rewrite_idempotent_and_writeback.1 (fun _ => FetchOutcome.httpErr 404)
      ["root", "p.html"] ["root"] false false
      ⟨[], [], [(["root", "p.html"], "https://assets.rmb.co.za/gone.png")], [], []⟩
      ⟨[], [(["root", "p.html"], "https://assets.rmb.co.za/gone.png")],
       [(["root", "p.html"], "https://assets.rmb.co.za/gone.png")],
       ["https://assets.rmb.co.za/gone.png"], ["https://assets.rmb.co.za/gone.png"]⟩
      [] (by rfl)).1 rfl).1
  · exact c3_rewrite_idempotent_and_writeback.2.2 "http://h/p.html"
      [("https://assets.rmb.co.za/img/logo.png",
        ["repo", "ChinaRMBSite", "assets", "img", "logo.png"])]
      ["repo"] ["repo", "ChinaRMBSite"]
      [some "https://assets.rmb.co.za/img/logo.png", none]
      (by simp only [stableAssetMap]; decide)

/-- A URL whose download raises `MissingRemoteAsset` is recorded in
`missing_assets`, obtains no replacement entry, is not added to the
ledger, and processing continues (no propagated exception). -/
theorem processUrl_missing (fetch : String → FetchOutcome)
    (file_path project_root : List String) (force : Bool) (u : String)
    (st : RunState) (tr : List String)
    (hhost : ASSET_HOSTS.contains (urlparse u).netloc = true)
    (hpath : lstripChar '/' (urlparse u).path ≠ "")
    (hseen : st.seen_urls.contains u = false)
    (hdl : download_remote_file fetch u
        (project_root ++ localRelativeSegments (lstripChar '/' (urlparse u).path)) force st.fs
      = (.error (.missing u), st.fs, tr)) :
    processUrl fetch file_path project_root force false u st
      = (none, none,
         { st with
             missing_assets := st.missing_assets ++ [(file_path, u)],
             attempts := st.attempts ++ tr,
             downloads := st.downloads ++ [u] }) := by
  simp only [processUrl, hhost, Bool.not_true, Bool.false_eq_true, if_false,
    if_neg hpath, hseen, Bool.not_false, Bool.and_self, if_true, hdl]

/-- A document whose only unique match 404s is left byte-identical:
changed=false, count 0, no replacement; the state gains exactly the
missing-asset entry, the attempt trace and the download record. -/
theorem rewrite_file_single_missing (fetch : String → FetchOutcome)
    (file_path project_root : List String) (force : Bool) (u : String)
    (st : RunState) (tr : List String)
    (hmatch : uniqueUrlMatches ((fsRead st.fs file_path).getD "") = [u])
    (hhost : ASSET_HOSTS.contains (urlparse u).netloc = true)
    (hpath : lstripChar '/' (urlparse u).path ≠ "")
    (hseen : st.seen_urls.contains u = false)
    (hdl : download_remote_file fetch u
        (project_root ++ localRelativeSegments (lstripChar '/' (urlparse u).path)) force st.fs
      = (.error (.missing u), st.fs, tr)) :
    rewrite_file fetch file_path project_root force false st
      = (none, false, 0,
         { st with
             missing_assets := st.missing_assets ++ [(file_path, u)],
             attempts := st.attempts ++ tr,
             downloads := st.downloads ++ [u] }) := by
  have hstep := processUrl_missing fetch file_path project_root force u st tr
    hhost hpath hseen hdl
  simp [rewrite_file, hmatch, processUrls, hstep, applyReplacements]

/-- C4: the first 404 at any retry stage is final — `download_remote_file`
raises `MissingRemoteAsset` at once, leaves the filesystem unchanged,
and attempts no variant beyond the 404ing one; in `rewrite_file` the
Missing outcome is recorded distinctly in `missing_assets` (not as a
RuntimeError), the URL obtains no replacement, and a document whose only
match is that URL is left byte-identical, still pointing at the original
remote URL. -/
theorem c4_first_404_stops_and_leaves_unrewritten :
    (∀ (fetch : String → FetchOutcome) (url : String) (destination : List String)
        (force : Bool) (fs : Fs) (k : Nat) (c : String),
      (fsContains fs destination = false ∨ force = true) →
      (∀ u ∈ (candidateUrls url).take k, isNon404Failure (fetch u)) →
      (candidateUrls url).get? k = some c → fetch c = .httpErr 404 →
      download_remote_file fetch url destination force fs
        = (.error (.missing url), fs, (candidateUrls url).take (k + 1))) ∧
    (∀ (fetch : String → FetchOutcome) (file_path project_root : List String)
        (force : Bool) (u : String) (st : RunState) (tr : List String),
      ASSET_HOSTS.contains (urlparse u).netloc = true →
      lstripChar '/' (urlparse u).path ≠ "" →
      st.seen_urls.contains u = false →
      download_remote_file fetch u
          (project_root ++ localRelativeSegments (lstripChar '/' (urlparse u).path)) force st.fs
        = (.error (.missing u), st.fs, tr) →
      processUrl fetch file_path project_root force false u st
        = (none, none,
           { st with
               missing_assets := st.missing_assets ++ [(file_path, u)],
               attempts := st.attempts ++ tr,
               downloads := st.downloads ++ [u] })) ∧
    (∀ (fetch : String → FetchOutcome) (file_path project_root : List String)
        (force : Bool) (u : String) (st : RunState) (tr : List String),
      uniqueUrlMatches ((fsRead st.fs file_path).getD "") = [u] →
      ASSET_HOSTS.contains (urlparse u).netloc = true →
      lstripChar '/' (urlparse u).path ≠ "" →
      st.seen_urls.contains u = false →
      download_remote_file fetch u
          (project_root ++ localRelativeSegments (lstripChar '/' (urlparse u).path)) force st.fs
        = (.error (.missing u), st.fs, tr) →
      rewrite_file fetch file_path project_root force false st
        = (none, false, 0,
           { st with
               missing_assets := st.missing_assets ++ [(file_path, u)],
               attempts := st.attempts ++ tr,
               downloads := st.downloads ++ [u] })) := by
  refine ⟨?_, ?_, ?_⟩
  · intro fetch url destination force fs k c hfree hfail hk h404
    have hguard : (fsContains fs destination && !force) = false := by
      rcases hfree with h | h <;> simp [h]
    unfold download_remote_file
    rw [hguard]
    simpa using attemptDownload_first_404 fetch url destination _ k fs none c hfail hk h404
  · intro fetch file_path project_root force u st tr hhost hpath hseen hdl
    exact processUrl_missing fetch file_path project_root force u st tr hhost hpath hseen hdl
  · intro fetch file_path project_root force u st tr hmatch hhost hpath hseen hdl
    exact rewrite_file_single_missing fetch file_path project_root force u st tr
      hmatch hhost hpath hseen hdl

/-- Witness for `c4_first_404_stops_and_leaves_unrewritten`: a document
whose single reference 404s on the first variant is reported missing and
left byte-identical. -/
theorem c4_first_404_stops_and_leaves_unrewritten_witness :
    rewrite_file (fun _ => FetchOutcome.httpErr 404) ["site", "a.html"] ["site"] false false
        ⟨[], [], [(["site", "a.html"], "https://assets.rmb.co.za/missing.jpg")], [], []⟩
      = (none, false, 0,
         ⟨[], [(["site", "a.html"], "https://assets.rmb.co.za/missing.jpg")],
          [(["site", "a.html"], "https://assets.rmb.co.za/missing.jpg")],
          ["https://assets.rmb.co.za/missing.jpg"], ["https://assets.rmb.co.za/missing.jpg"]⟩) :=
  c4_first_404_stops_and_leaves_unrewritten.2.2
    (fun _ => FetchOutcome.httpErr 404) ["site", "a.html"] ["site"] false
    "https://assets.rmb.co.za/missing.jpg"
    ⟨[], [], [(["site", "a.html"], "https://assets.rmb.co.za/missing.jpg")], [], []⟩
    ["https://assets.rmb.co.za/missing.jpg"]
    (by rfl) (by rfl) (by decide) (by rfl) (by rfl)

/-- An oracle outcome that makes `resolve_assets` catch an exception: an
error status (raise_for_status) or a transport error. -/
def isFailReq : ReqOutcome → Prop
  | .resp s _ _ => 400 ≤ s
  | .reqErr _ => True

/-- An oracle outcome under which the batch fetcher can never raise
`RuntimeError`: success or a 404. -/
def isSafeOutcome : FetchOutcome → Prop
  | .ok _ => True
  | .httpErr code => code = 404
  | .urlErr _ => False

/-- The candidate list of the batch fetcher is never empty (the
conservative first variant is always present). -/
theorem candidateUrls_ne_nil (url : String) : candidateUrls url ≠ [] := by
  simp only [candidateUrls, path_variants]
  intro h
  rw [show [quote (urlparse url).path "/:"]
        ++ (if (urlparse url).path.data.contains ':' then [quote (urlparse url).path "/"] else [])
        ++ (if (urlparse url).query ≠ "" then [quote (urlparse url).path "/:"] else [])
      = quote (urlparse url).path "/:"
        :: ((if (urlparse url).path.data.contains ':' then [quote (urlparse url).path "/"] else [])
        ++ (if (urlparse url).query ≠ "" then [quote (urlparse url).path "/:"] else []))
      from rfl] at h
  simp [enumerateCandidates] at h

/-- Under a safe oracle (success or 404 only), the attempt loop on a
nonempty candidate list returns at its head: a successful download or a
Missing error — never a RuntimeError. -/
theorem attemptDownload_safe (fetch : String → FetchOutcome) (url : String)
    (destination : List String) (fs : Fs)
    (hsafe : ∀ s, isSafeOutcome (fetch s)) (c : String) (cs : List String)
    (lastExc : Option FetchOutcome) :
    (attemptDownload fetch url destination fs (c :: cs) lastExc).1 = .ok true ∨
    (attemptDownload fetch url destination fs (c :: cs) lastExc).1 = .error (.missing url) := by
  have h := hsafe c
  cases hfc : fetch c with
  | ok b => left; simp [attemptDownload, hfc]
  | httpErr code =>
    rw [hfc] at h
    have : code = 404 := h
    subst this
    right; simp [attemptDownload, hfc]
  | urlErr m => rw [hfc] at h; exact absurd h (by simp [isSafeOutcome])

/-- Under a safe oracle, `download_remote_file` never raises
`RuntimeError`. -/
theorem download_remote_file_safe (fetch : String → FetchOutcome) (url : String)
    (destination : List String) (force : Bool) (fs : Fs)
    (hsafe : ∀ s, isSafeOutcome (fetch s)) :
    (download_remote_file fetch url destination force fs).1 = .ok true ∨
    (download_remote_file fetch url destination force fs).1 = .ok false ∨
    (download_remote_file fetch url destination force fs).1 = .error (.missing url) := by
  unfold download_remote_file
  by_cases hg : (fsContains fs destination && !force) = true
  · rw [if_pos hg]; right; left; rfl
  · rw [if_neg hg]
    rcases hcs : candidateUrls url with _ | ⟨c, cs⟩
    · exact absurd hcs (candidateUrls_ne_nil url)
    · rcases attemptDownload_safe fetch url destination fs hsafe c cs none with h | h
      · left; exact h
      · right; right; exact h

/-- Under a safe oracle, a URL pass never propagates an exception. -/
theorem processUrl_safe (fetch : String → FetchOutcome)
    (file_path project_root : List String) (force dry : Bool) (u : String)
    (st : RunState) (hsafe : ∀ s, isSafeOutcome (fetch s)) :
    (processUrl fetch file_path project_root force dry u st).1 = none := by
  unfold processUrl
  by_cases h1 : ASSET_HOSTS.contains (urlparse u).netloc = true
  · simp only [h1, Bool.not_true, Bool.false_eq_true, if_false]
    by_cases h2 : lstripChar '/' (urlparse u).path = ""
    · rw [if_pos h2]
    · rw [if_neg h2]
      by_cases h3 : (!dry && !(st.seen_urls.contains u)) = true
      · rw [if_pos h3]
        rcases hdl : download_remote_file fetch u
            (project_root ++ localRelativeSegments (lstripChar '/' (urlparse u).path))
            force st.fs with ⟨r1, rfs, rtr⟩
        have hs := download_remote_file_safe fetch u
          (project_root ++ localRelativeSegments (lstripChar '/' (urlparse u).path))
          force st.fs hsafe
        rw [hdl] at hs
        simp only [hdl]
        rcases hs with h | h | h
        · rw [show r1 = Except.ok true from h]
        · rw [show r1 = Except.ok false from h]
        · rw [show r1 = Except.error (DlError.missing u) from h]
      · rw [if_neg h3]
  · have h1m : ¬((urlparse u).netloc ∈ ASSET_HOSTS) := by simpa using h1
    simp [h1m]

/-- Under a safe oracle, the whole URL loop never propagates an
exception. -/
theorem processUrls_safe (fetch : String → FetchOutcome)
    (file_path project_root : List String) (force dry : Bool)
    (hsafe : ∀ s, isSafeOutcome (fetch s)) :
    ∀ (urls : List String) (st : RunState),
      (processUrls fetch file_path project_root force dry urls st).1 = none := by
  intro urls
  induction urls with
  | nil => intro st; rfl
  | cons u rest ih =>
    intro st
    rcases hp : processUrl fetch file_path project_root force dry u st with ⟨e1, entry, st1⟩
    have h1 := processUrl_safe fetch file_path project_root force dry u st hsafe
    rw [hp] at h1
    cases e1 with
    | some e => simp at h1
    | none =>
      have h2 := ih st1
      rcases hr : processUrls fetch file_path project_root force dry rest st1
        with ⟨e2, repls2, st2⟩
      rw [hr] at h2
      simp only [processUrls, hp, hr]
      exact h2

/-- Under a safe oracle, `rewrite_file` never propagates an exception. -/
theorem rewrite_file_safe (fetch : String → FetchOutcome)
    (file_path project_root : List String) (force dry : Bool) (st : RunState)
    (hsafe : ∀ s, isSafeOutcome (fetch s)) :
    (rewrite_file fetch file_path project_root force dry st).1 = none := by
  unfold rewrite_file
  by_cases hM : (uniqueUrlMatches ((fsRead st.fs file_path).getD "")).isEmpty = true
  · simp [hM]
  · have hMne := Bool.eq_false_iff.mpr hM
    simp only [hMne, Bool.false_eq_true, if_false]
    have h := processUrls_safe fetch file_path project_root force dry hsafe
      (uniqueUrlMatches ((fsRead st.fs file_path).getD "")) st
    rcases hp : processUrls fetch file_path project_root force dry
        (uniqueUrlMatches ((fsRead st.fs file_path).getD "")) st with ⟨e1, repls, st1⟩
    rw [hp] at h
    cases e1 with
    | some e => simp at h
    | none =>
      simp only []
      by_cases hif : (dry || (applyReplacements repls ((fsRead st.fs file_path).getD "")
          == (fsRead st.fs file_path).getD "")) = true
      · rw [if_pos hif]
      · rw [if_neg hif]

/-- A failing fetch on one reference of the single-page resolver never
aborts: the reference is counted as skipped and the mapping, download
count and ledger are unchanged. -/
theorem resolveStep_failure_continues (http : String → ReqOutcome) (page_url : String)
    (output_dir repo_root : List String) (overwrite : Bool) (src : String)
    (st : ResolveState) (hfail : isFailReq (http (urljoin page_url src))) :
    ∃ eff : List Effect,
      resolveStep http page_url output_dir repo_root overwrite src st
        = (none, { st with skipped := st.skipped + 1, effects := st.effects ++ eff }) := by
  unfold resolveStep
  by_cases h1 : pyStartsWith (urlparse (urljoin page_url src)).scheme "http" = true
  · simp only [h1, Bool.not_true, Bool.false_eq_true, if_false]
    by_cases h2 : ((ResolveState.seen st).any (fun e => e.1 == urljoin page_url src) && !overwrite) = true
    · rw [if_pos h2]
      exact ⟨[], by cases st; simp⟩
    · rw [if_neg h2]
      rcases hout : http (urljoin page_url src) with ⟨s, ct, body⟩ | m
      · rw [hout] at hfail
        have hs : 400 ≤ s := hfail
        have hda : download_asset http (urljoin page_url src)
            (resolveDestination (urljoin page_url src) output_dir) overwrite st.fs
            = (.error (.httpError s), st.fs, [.get (urljoin page_url src)]) := by
          simp only [download_asset, hout, if_pos hs]
        refine ⟨[.get (urljoin page_url src)], ?_⟩
        simp only [hda]
      · have hda : download_asset http (urljoin page_url src)
            (resolveDestination (urljoin page_url src) output_dir) overwrite st.fs
            = (.error (.requestException m), st.fs,
               if hasHttpAdapter (urljoin page_url src) then [.get (urljoin page_url src)]
               else []) := by
          simp only [download_asset, hout]
        refine ⟨if hasHttpAdapter (urljoin page_url src) then [.get (urljoin page_url src)]
          else [], ?_⟩
        simp only [hda]
  · have h1f := Bool.eq_false_iff.mpr h1
    simp only [h1f, Bool.not_false, if_true]
    exact ⟨[], by cases st; simp⟩

/-- When every source's fetch fails, the single-page resolver completes
the whole list, counting each failure as skipped. -/
theorem resolveAssetsFrom_all_fail (http : String → ReqOutcome) (page_url : String)
    (output_dir repo_root : List String) (overwrite : Bool) :
    ∀ (sources : List String) (st : ResolveState),
      (∀ src ∈ sources, isFailReq (http (urljoin page_url src))) →
      ∃ effs : List Effect,
        resolveAssetsFrom http page_url output_dir repo_root overwrite sources st
          = (none, { st with skipped := st.skipped + sources.length,
                             effects := st.effects ++ effs }) := by
  intro sources
  induction sources with
  | nil =>
    intro st _
    exact ⟨[], by cases st; simp [resolveAssetsFrom]⟩
  | cons src rest ih =>
    intro st hall
    obtain ⟨eff, hstep⟩ := resolveStep_failure_continues http page_url output_dir repo_root
      overwrite src st (hall src (by simp))
    obtain ⟨effs, htail⟩ := ih { st with skipped := st.skipped + 1, effects := st.effects ++ eff }
      (fun s hs => hall s (by simp [hs]))
    refine ⟨eff ++ effs, ?_⟩
    simp only [resolveAssetsFrom, hstep, htail]
    cases st
    simp
    all_goals omega

/-- C5 (counterexample): a persistent transport error on one reference
of the batch script aborts the whole run — the propagated RuntimeError
surfaces from `run` and the second document is never processed (no
request for its URL is ever attempted). -/
theorem c5_counterexample :
    runCache (fun _ => FetchOutcome.urlErr "boom") ["root"] false false
        [["root", "a.html"], ["root", "b.html"]]
        ⟨[], [], [(["root", "a.html"], "https://assets.rmb.co.za/a.png"),
                  (["root", "b.html"], "https://assets.rmb.co.za/b.png")], [], []⟩
      = (some "Failed to download https://assets.rmb.co.za/a.png: boom",
         ⟨[], [], [(["root", "a.html"], "https://assets.rmb.co.za/a.png"),
                   (["root", "b.html"], "https://assets.rmb.co.za/b.png")],
          ["https://assets.rmb.co.za/a.png"], ["https://assets.rmb.co.za/a.png"]⟩,
         ⟨0, 0, 0⟩) := by
  rfl

/-- C5 (amended): in the single-page script a fetch failure on one
reference never aborts — the step returns normally with the failure
counted as skipped, and a run whose fetches all fail still processes
every source; in the batch script the run survives any oracle that only
succeeds or 404s (Missing outcomes are recorded and processing
continues), while a persistent transport error propagates (see the
counterexample). -/
theorem c5_failures_recorded_run_continues :
    (∀ (http : String → ReqOutcome) (page_url : String)
        (output_dir repo_root : List String) (overwrite : Bool) (src : String)
        (st : ResolveState),
      isFailReq (http (urljoin page_url src)) →
      ∃ eff : List Effect,
        resolveStep http page_url output_dir repo_root overwrite src st
          = (none, { st with skipped := st.skipped + 1, effects := st.effects ++ eff })) ∧
    (∀ (http : String → ReqOutcome) (page_url : String)
        (output_dir repo_root : List String) (overwrite : Bool)
        (sources : List String) (st : ResolveState),
      (∀ src ∈ sources, isFailReq (http (urljoin page_url src))) →
      ∃ effs : List Effect,
        resolveAssetsFrom http page_url output_dir repo_root overwrite sources st
          = (none, { st with skipped := st.skipped + sources.length,
                             effects := st.effects ++ effs })) ∧
    (∀ (fetch : String → FetchOutcome) (root : List String) (force dry : Bool)
        (files : List (List String)) (st : RunState),
      (∀ s, isSafeOutcome (fetch s)) →
      (runCache fetch root force dry files st).1 = none) := by
  refine ⟨resolveStep_failure_continues, resolveAssetsFrom_all_fail, ?_⟩
  intro fetch root force dry files
  induction files with
  | nil => intro st _; rfl
  | cons f rest ih =>
    intro st hsafe
    have h1 := rewrite_file_safe fetch f root force dry st hsafe
    rcases hf : rewrite_file fetch f root force dry st with ⟨e1, changed, count, st1⟩
    rw [hf] at h1
    cases e1 with
    | some e => simp at h1
    | none =>
      have h2 := ih st1 hsafe
      rcases hr : runCache fetch root force dry rest st1 with ⟨e2, st2, tally⟩
      rw [hr] at h2
      simp only [runCache, hf, hr]
      exact h2

/-- Witness for `c5_failures_recorded_run_continues`: two sources whose
fetches both fail are both processed and counted as skipped. -/
theorem c5_failures_recorded_run_continues_witness :
    ∃ effs : List Effect,
      resolveAssetsFrom (fun _ => ReqOutcome.reqErr "down") "http://h/p.html"
          ["repo", "assets"] ["repo"] false ["/a.png", "/b.png"] ⟨[], [], 0, 0, [], []⟩
        = (none, ⟨[], [], 0, 0 + 2, [], [] ++ effs⟩) :=
  c5_failures_recorded_run_continues.2.1 (fun _ => ReqOutcome.reqErr "down") "http://h/p.html"
    ["repo", "assets"] ["repo"] false ["/a.png", "/b.png"] ⟨[], [], 0, 0, [], []⟩
    (by intro src hs; fin_cases hs <;> exact trivial)

/-- Every resolved URL whose scheme does not start with `http` is
rejected by the explicit gate (line 190) without any fetch: the step
issues no request, adds nothing to the mapping or ledger, and counts the
reference as skipped. -/
theorem resolveStep_scheme_gate (http : String → ReqOutcome) (page_url : String)
    (output_dir repo_root : List String) (overwrite : Bool) (src : String)
    (st : ResolveState)
    (h : pyStartsWith (urlparse (urljoin page_url src)).scheme "http" = false) :
    resolveStep http page_url output_dir repo_root overwrite src st
      = (none, { st with skipped := st.skipped + 1 }) := by
  unfold resolveStep
  simp only [h, Bool.not_false, if_true]

/-- Mapping provenance of one resolver step: a mapping entry is new only
in the successful branch, which needs a response from the oracle, and a
realizable oracle refuses adapterless URLs with `InvalidSchema` — so
every new entry names a URL with a mounted requests adapter. -/
theorem resolveStep_mapping_scheme (http : String → ReqOutcome) (page_url : String)
    (output_dir repo_root : List String) (overwrite : Bool) (src : String)
    (st : ResolveState) (hreal : requestsRealizable http) :
    ∀ p, p ∈ (resolveStep http page_url output_dir repo_root overwrite src st).2.mapping →
      p ∈ st.mapping ∨ hasHttpAdapter p.1 = true := by
  unfold resolveStep
  by_cases h1 : pyStartsWith (urlparse (urljoin page_url src)).scheme "http" = true
  · simp only [h1, Bool.not_true, Bool.false_eq_true, if_false]
    by_cases h2 : ((ResolveState.seen st).any (fun e => e.1 == urljoin page_url src)
        && !overwrite) = true
    · rw [if_pos h2]
      exact fun p hp => Or.inl hp
    · rw [if_neg h2]
      by_cases hada : hasHttpAdapter (urljoin page_url src) = true
      · rcases hda : download_asset http (urljoin page_url src)
            (resolveDestination (urljoin page_url src) output_dir) overwrite st.fs
          with ⟨r1, rfs, reff⟩
        simp only [hda]
        cases r1 with
        | ok v =>
          rcases v with ⟨fd, wd⟩
          dsimp only
          cases hrel : relativeTo fd repo_root with
          | some rel =>
            dsimp only
            intro p hp
            rcases List.mem_append.mp hp with hl | hr
            · exact Or.inl hl
            · right
              have hpe : p = (urljoin page_url src, fd) := by simpa using hr
              rw [hpe]
              exact hada
          | none =>
            dsimp only
            exact fun p hp => Or.inl hp
        | error e =>
          cases e with
          | httpError s =>
            dsimp only
            exact fun p hp => Or.inl hp
          | requestException m =>
            dsimp only
            exact fun p hp => Or.inl hp
      · have hadaf : hasHttpAdapter (urljoin page_url src) = false := Bool.eq_false_iff.mpr hada
        have hout := hreal _ hadaf
        have hda : download_asset http (urljoin page_url src)
            (resolveDestination (urljoin page_url src) output_dir) overwrite st.fs
            = (.error (.requestException "InvalidSchema"), st.fs, []) := by
          simp only [download_asset, hout, hadaf, Bool.false_eq_true, if_false]
        simp only [hda]
        exact fun p hp => Or.inl hp
  · have h1f := Bool.eq_false_iff.mpr h1
    simp only [h1f, Bool.not_false, if_true]
    exact fun p hp => Or.inl hp

/-- Mapping provenance along the resolver loop: every entry of the final
mapping was present initially or names a URL with a mounted requests
adapter. -/
theorem resolveAssetsFrom_mapping_scheme (http : String → ReqOutcome) (page_url : String)
    (output_dir repo_root : List String) (overwrite : Bool)
    (hreal : requestsRealizable http) :
    ∀ (sources : List String) (st : ResolveState) (p : String × List String),
      p ∈ (resolveAssetsFrom http page_url output_dir repo_root overwrite sources st).2.mapping →
      p ∈ st.mapping ∨ hasHttpAdapter p.1 = true := by
  intro sources
  induction sources with
  | nil =>
    intro st p hp
    exact Or.inl hp
  | cons src rest ih =>
    intro st p hp
    rcases hstep : resolveStep http page_url output_dir repo_root overwrite src st
      with ⟨e1, st1⟩
    have hstepm := resolveStep_mapping_scheme http page_url output_dir repo_root overwrite
      src st hreal
    rw [hstep] at hstepm
    cases e1 with
    | some e =>
      simp only [resolveAssetsFrom, hstep] at hp
      exact hstepm p hp
    | none =>
      simp only [resolveAssetsFrom, hstep] at hp
      rcases ih st1 p hp with h | h
      · exact hstepm p h
      · exact Or.inr h

/-- C6: a resolved URL whose scheme is neither `http` nor `https` is
rejected by `resolve_assets`: the step issues no request (a scheme not
starting with `http` is filtered by the explicit gate of line 190; one
starting with `http`, such as `httpz`, passes that gate but
`requests.get` deterministically raises `InvalidSchema` inside
`get_adapter` before any network I/O, which line 228's catch turns into
a skip), the reference is counted as skipped, and nothing is added to
the mapping, ledger, filesystem, or effect trace — and across a whole
run every URL that enters the asset mapping has scheme `http` or
`https`, so only http and https URLs are mirrored. -/
theorem c6_non_http_rejected :
    (∀ (http : String → ReqOutcome) (page_url : String)
        (output_dir repo_root : List String) (overwrite : Bool) (src : String)
        (st : ResolveState),
      requestsRealizable http →
      (urlparse (urljoin page_url src)).scheme ≠ "http" →
      (urlparse (urljoin page_url src)).scheme ≠ "https" →
      resolveStep http page_url output_dir repo_root overwrite src st
        = (none, { st with skipped := st.skipped + 1 })) ∧
    (∀ (http : String → ReqOutcome) (page_url : String)
        (output_dir repo_root : List String) (overwrite : Bool)
        (sources : List String) (fs : Fs) (u : String) (dest : List String),
      requestsRealizable http →
      (u, dest) ∈ (resolve_assets http page_url sources output_dir repo_root
          overwrite fs).2.mapping →
      (urlparse u).scheme = "http" ∨ (urlparse u).scheme = "https") := by
  constructor
  · intro http page_url output_dir repo_root overwrite src st hreal h1 h2
    by_cases hgate : pyStartsWith (urlparse (urljoin page_url src)).scheme "http" = true
    · have hada : hasHttpAdapter (urljoin page_url src) = false := by
        simp [hasHttpAdapter, h1, h2]
      have hout := hreal _ hada
      unfold resolveStep
      simp only [hgate, Bool.not_true, Bool.false_eq_true, if_false]
      by_cases hdup : ((ResolveState.seen st).any (fun e => e.1 == urljoin page_url src)
          && !overwrite) = true
      · rw [if_pos hdup]
      · rw [if_neg hdup]
        have hda : download_asset http (urljoin page_url src)
            (resolveDestination (urljoin page_url src) output_dir) overwrite st.fs
            = (.error (.requestException "InvalidSchema"), st.fs, []) := by
          simp only [download_asset, hout, hada, Bool.false_eq_true, if_false]
        simp only [hda]
        cases st
        simp
    · exact resolveStep_scheme_gate http page_url output_dir repo_root overwrite src st
        (Bool.eq_false_iff.mpr hgate)
  · intro http page_url output_dir repo_root overwrite sources fs u dest hreal hmem
    have h := resolveAssetsFrom_mapping_scheme http page_url output_dir repo_root overwrite
      hreal sources ⟨[], [], 0, 0, fs, []⟩ (u, dest) hmem
    rcases h with h | h
    · simp at h
    · simpa [hasHttpAdapter] using h

/-- Witness for `c6_non_http_rejected`: with an oracle realizable by
requests, the resolved URL `httpz://x/a.png` (scheme `httpz`, which
starts with `http` and so passes the source's gate) is rejected through
the caught `InvalidSchema` path, and `ftp://y/b.png` is rejected by the
gate itself — both skipped with no request effect and empty mapping. -/
theorem c6_non_http_rejected_witness :
    resolveStep
        (fun url => if hasHttpAdapter url then ReqOutcome.resp 200 "image/png" "BYTES"
          else ReqOutcome.reqErr "InvalidSchema")
        "http://h/p.html" ["repo", "assets"] ["repo"] false "httpz://x/a.png"
        ⟨[], [], 0, 0, [], []⟩
      = (none, ⟨[], [], 0, 0 + 1, [], []⟩) ∧
    resolveStep
        (fun url => if hasHttpAdapter url then ReqOutcome.resp 200 "image/png" "BYTES"
          else ReqOutcome.reqErr "InvalidSchema")
        "http://h/p.html" ["repo", "assets"] ["repo"] false "ftp://y/b.png"
        ⟨[], [], 0, 0, [], []⟩
      = (none, ⟨[], [], 0, 0 + 1, [], []⟩) := by
  constructor
  · exact c6_non_http_rejected.1 _ "http://h/p.html" ["repo", "assets"] ["repo"] false
      "httpz://x/a.png" ⟨[], [], 0, 0, [], []⟩
      (fun url h => by simp [h]) (by decide) (by decide)
  · exact c6_non_http_rejected.1 _ "http://h/p.html" ["repo", "assets"] ["repo"] false
      "ftp://y/b.png" ⟨[], [], 0, 0, [], []⟩
      (fun url h => by simp [h]) (by decide) (by decide)

/-- C9: when the final destination already exists and overwrite/force is
off, both fetchers report a skipped-existing outcome (newly-downloaded
false), leave the filesystem byte-identical, and do not fetch the
response body — the single-page fetcher issues only the streaming GET
(no body read, no write), and the batch fetcher issues no request at
all. -/
theorem c9_skip_existing_no_refetch_no_write :
    (∀ (http : String → ReqOutcome) (asset_url : String) (destination : List String)
        (fs : Fs) (status : Nat) (ct body : String),
      http asset_url = .resp status ct body → status < 400 →
      fsContains fs (inferredDestination ct destination) = true →
      download_asset http asset_url destination false fs
        = (.ok (inferredDestination ct destination, false), fs, [.get asset_url])) ∧
    (∀ (fetch : String → FetchOutcome) (url : String) (destination : List String) (fs : Fs),
      fsContains fs destination = true →
      download_remote_file fetch url destination false fs = (.ok false, fs, [])) := by
  constructor
  · intro http asset_url destination fs status ct body hresp hlt hex
    have hge : ¬(400 ≤ status) := by omega
    simp [download_asset, hresp, hge, hex]
  · intro fetch url destination fs hex
    simp [download_remote_file, hex]

/-- Witness for `c9_skip_existing_no_refetch_no_write`: a destination
whose inferred final path (`x` plus `.png` from the content type)
already holds bytes is reported as skipped, the bytes untouched, the
body unread. -/
theorem c9_skip_existing_no_refetch_no_write_witness :
    download_asset (fun _ => ReqOutcome.resp 200 "image/png" "NEW") "http://h/x"
        ["repo", "assets", "x"] false [(["repo", "assets", "x.png"], "OLD")]
      = (.ok (inferredDestination "image/png" ["repo", "assets", "x"], false),
         [(["repo", "assets", "x.png"], "OLD")], [.get "http://h/x"]) :=
  c9_skip_existing_no_refetch_no_write.1 (fun _ => ReqOutcome.resp 200 "image/png" "NEW")
    "http://h/x" ["repo", "assets", "x"] [(["repo", "assets", "x.png"], "OLD")]
    200 "image/png" "NEW" rfl (by omega) (by rfl)

/-- Occurrence counting distributes over append. -/
theorem countOccur_append (u : String) (a b : List String) :
    countOccur u (a ++ b) = countOccur u a + countOccur u b := by
  simp [countOccur, List.filter_append]

/-- GET counting distributes over append. -/
theorem countGets_append (u : String) (a b : List Effect) :
    countGets u (a ++ b) = countGets u a + countGets u b := by
  simp [countGets, List.filter_append]

/-- Once a URL is in the batch ledger, one URL pass keeps it there and
invokes no download for it. -/
theorem processUrl_ledger_no_refetch (fetch : String → FetchOutcome)
    (fp root : List String) (force dry : Bool) (v : String) (st : RunState) (u : String)
    (h : st.seen_urls.contains u = true) :
    (processUrl fetch fp root force dry v st).2.2.seen_urls.contains u = true ∧
    countOccur u (processUrl fetch fp root force dry v st).2.2.downloads
      = countOccur u st.downloads := by
  unfold processUrl
  by_cases h1 : ASSET_HOSTS.contains (urlparse v).netloc = true
  · simp only [h1, Bool.not_true, Bool.false_eq_true, if_false]
    by_cases h2 : lstripChar '/' (urlparse v).path = ""
    · rw [if_pos h2]; exact ⟨h, rfl⟩
    · rw [if_neg h2]
      by_cases h3 : (!dry && !(st.seen_urls.contains v)) = true
      · rw [if_pos h3]
        have hvne : v ≠ u := by
          intro he
          subst he
          have h3' : dry = false ∧ ¬(st.seen_urls.contains v = true) := by simpa using h3
          exact h3'.2 h
        have hcnt : countOccur u (st.downloads ++ [v]) = countOccur u st.downloads := by
          rw [countOccur_append]
          have : (v == u) = false := by simp [hvne]
          simp [countOccur, this]
        rcases hr : download_remote_file fetch v
            (root ++ localRelativeSegments (lstripChar '/' (urlparse v).path)) force st.fs
          with ⟨r1, rfs, rtr⟩
        simp only [hr]
        have hmem : u ∈ st.seen_urls := by simpa using h
        cases r1 with
        | ok b =>
          refine ⟨?_, hcnt⟩
          simp [hmem]
        | error e =>
          cases e with
          | missing m => exact ⟨h, hcnt⟩
          | runtime a b => exact ⟨h, hcnt⟩
      · rw [if_neg h3]; exact ⟨h, rfl⟩
  · have hcf : ASSET_HOSTS.contains (urlparse v).netloc = false := Bool.eq_false_iff.mpr h1
    rw [if_pos (show (!(ASSET_HOSTS.contains (urlparse v).netloc)) = true by rw [hcf]; rfl)]
    exact ⟨h, rfl⟩

/-- Ledger no-refetch, lifted over the URL loop of one document. -/
theorem processUrls_ledger_no_refetch (fetch : String → FetchOutcome)
    (fp root : List String) (force dry : Bool) (u : String) :
    ∀ (urls : List String) (st : RunState), st.seen_urls.contains u = true →
      (processUrls fetch fp root force dry urls st).2.2.seen_urls.contains u = true ∧
      countOccur u (processUrls fetch fp root force dry urls st).2.2.downloads
        = countOccur u st.downloads := by
  intro urls
  induction urls with
  | nil => intro st h; exact ⟨h, rfl⟩
  | cons v rest ih =>
    intro st h
    have hstep := processUrl_ledger_no_refetch fetch fp root force dry v st u h
    rcases hp : processUrl fetch fp root force dry v st with ⟨e1, entry, st1⟩
    rw [hp] at hstep
    cases e1 with
    | some e => simp only [processUrls, hp]; exact hstep
    | none =>
      have htail := ih st1 hstep.1
      rcases hst : processUrls fetch fp root force dry rest st1 with ⟨e2, repls, st2⟩
      rw [hst] at htail
      simp only [processUrls, hp, hst]
      exact ⟨htail.1, htail.2.trans hstep.2⟩

/-- Ledger no-refetch, lifted over one whole document rewrite. -/
theorem rewrite_file_ledger_no_refetch (fetch : String → FetchOutcome)
    (fp root : List String) (force dry : Bool) (st : RunState) (u : String)
    (h : st.seen_urls.contains u = true) :
    (rewrite_file fetch fp root force dry st).2.2.2.seen_urls.contains u = true ∧
    countOccur u (rewrite_file fetch fp root force dry st).2.2.2.downloads
      = countOccur u st.downloads := by
  unfold rewrite_file
  by_cases hM : (uniqueUrlMatches ((fsRead st.fs fp).getD "")).isEmpty = true
  · rw [if_pos hM]
    exact ⟨h, rfl⟩
  · rw [if_neg hM]
    have hloop := processUrls_ledger_no_refetch fetch fp root force dry u
      (uniqueUrlMatches ((fsRead st.fs fp).getD "")) st h
    rcases hp : processUrls fetch fp root force dry
        (uniqueUrlMatches ((fsRead st.fs fp).getD "")) st with ⟨e1, repls, st1⟩
    rw [hp] at hloop
    cases e1 with
    | some e => exact hloop
    | none =>
      dsimp only at hloop ⊢
      by_cases hif : (dry || (applyReplacements repls ((fsRead st.fs fp).getD "")
          == (fsRead st.fs fp).getD "")) = true
      · rw [if_pos hif]; exact hloop
      · rw [if_neg hif]; exact hloop

/-- C2's run-wide core for the batch script: a URL in the ledger is
never downloaded again across the remaining documents of the run. -/
theorem runCache_ledger_no_refetch (fetch : String → FetchOutcome) (root : List String)
    (force dry : Bool) (u : String) :
    ∀ (files : List (List String)) (st : RunState), st.seen_urls.contains u = true →
      countOccur u (runCache fetch root force dry files st).2.1.downloads
        = countOccur u st.downloads := by
  intro files
  induction files with
  | nil => intro st _; rfl
  | cons f rest ih =>
    intro st h
    have hstep := rewrite_file_ledger_no_refetch fetch f root force dry st u h
    rcases hf : rewrite_file fetch f root force dry st with ⟨e1, changed, count, st1⟩
    rw [hf] at hstep
    cases e1 with
    | some e => simp only [runCache, hf]; exact hstep.2
    | none =>
      have htail := ih st1 hstep.1
      rcases hr : runCache fetch root force dry rest st1 with ⟨e2, st2, tally⟩
      rw [hr] at htail
      simp only [runCache, hf, hr]
      exact htail.trans hstep.2

/-- A download for a different URL contributes no GET of `u`. -/
theorem download_asset_countGets_ne (http : String → ReqOutcome) (au : String)
    (dest : List String) (ov : Bool) (fs : Fs) (u : String) (hne : au ≠ u) :
    countGets u (download_asset http au dest ov fs).2.2 = 0 := by
  have hbeq : (Effect.get au == Effect.get u) = false := by simp [hne]
  unfold download_asset
  cases ho : http au with
  | reqErr m =>
    dsimp only
    by_cases ha : hasHttpAdapter au = true
    · rw [if_pos ha]; simp [countGets, hbeq]
    · rw [if_neg ha]; simp [countGets]
  | resp s ct body =>
    dsimp only
    by_cases hs : 400 ≤ s
    · rw [if_pos hs]; simp [countGets, hbeq]
    · rw [if_neg hs]
      by_cases hex : (fsContains fs (inferredDestination ct dest) && !ov) = true
      · rw [if_pos hex]; simp [countGets, hbeq]
      · rw [if_neg hex]; simp [countGets, hbeq]

/-- Once a URL is in the single-page `seen` dictionary and overwrite is
off, a step for any source keeps it there and issues no GET for it. -/
theorem resolveStep_seen_no_refetch (http : String → ReqOutcome) (page_url : String)
    (output_dir repo_root : List String) (src : String) (st : ResolveState) (u : String)
    (h : st.seen.any (fun e => e.1 == u) = true) :
    ((resolveStep http page_url output_dir repo_root false src st).2.seen.any
        (fun e => e.1 == u) = true) ∧
    countGets u (resolveStep http page_url output_dir repo_root false src st).2.effects
      = countGets u st.effects := by
  unfold resolveStep
  by_cases h1 : pyStartsWith (urlparse (urljoin page_url src)).scheme "http" = true
  · simp only [h1, Bool.not_true, Bool.false_eq_true, if_false]
    by_cases h2 : (st.seen.any (fun e => e.1 == urljoin page_url src) && !false) = true
    · rw [if_pos h2]; exact ⟨h, rfl⟩
    · rw [if_neg h2]
      have hne : urljoin page_url src ≠ u := by
        intro he
        apply h2
        rw [he, h]
        rfl
      have hget := download_asset_countGets_ne http (urljoin page_url src)
        (resolveDestination (urljoin page_url src) output_dir) false st.fs u hne
      rcases hda : download_asset http (urljoin page_url src)
          (resolveDestination (urljoin page_url src) output_dir) false st.fs
        with ⟨r1, rfs, reff⟩
      rw [hda] at hget
      have hcnt : countGets u (st.effects ++ reff) = countGets u st.effects := by
        rw [countGets_append, show countGets u reff = 0 from hget]
        omega
      simp only [hda]
      cases r1 with
      | ok v =>
        rcases v with ⟨fd, wd⟩
        dsimp only
        cases hrel : relativeTo fd repo_root with
        | some rel =>
          dsimp only
          refine ⟨?_, hcnt⟩
          simp [List.any_append, h]
        | none =>
          dsimp only
          exact ⟨h, hcnt⟩
      | error e =>
        cases e with
        | httpError code => dsimp only; exact ⟨h, hcnt⟩
        | requestException m => dsimp only; exact ⟨h, hcnt⟩
  · simp only [Bool.eq_false_iff.mpr h1, Bool.not_false, if_true]
    exact ⟨h, by trivial⟩

/-- Seen no-refetch, lifted over the whole source list. -/
theorem resolveAssetsFrom_seen_no_refetch (http : String → ReqOutcome) (page_url : String)
    (output_dir repo_root : List String) (u : String) :
    ∀ (sources : List String) (st : ResolveState), st.seen.any (fun e => e.1 == u) = true →
      countGets u (resolveAssetsFrom http page_url output_dir repo_root false sources st).2.effects
        = countGets u st.effects := by
  intro sources
  induction sources with
  | nil => intro st _; rfl
  | cons src rest ih =>
    intro st h
    have hstep := resolveStep_seen_no_refetch http page_url output_dir repo_root src st u h
    rcases hs : resolveStep http page_url output_dir repo_root false src st with ⟨e1, st1⟩
    rw [hs] at hstep
    cases e1 with
    | some e => simp only [resolveAssetsFrom, hs]; exact hstep.2
    | none =>
      have htail := ih st1 hstep.1
      rcases hr : resolveAssetsFrom http page_url output_dir repo_root false rest st1
        with ⟨e2, st2⟩
      rw [hr] at htail
      simp only [resolveAssetsFrom, hs, hr]
      exact htail.trans hstep.2

/-- C2 (counterexample): with overwrite requested, the single-page
resolver fetches a URL that is already recorded in its dedup ledger a
second time — two GETs and two downloads for one distinct URL in one
run. -/
theorem c2_counterexample :
    countGets "http://h/a.png"
      ((resolve_assets (fun _ => ReqOutcome.resp 200 "image/png" "BYTES") "http://h/p.html"
          ["http://h/a.png", "http://h/a.png"] ["repo", "assets"] ["repo"] true []).2.effects)
      = 2 ∧
    (resolve_assets (fun _ => ReqOutcome.resp 200 "image/png" "BYTES") "http://h/p.html"
        ["http://h/a.png", "http://h/a.png"] ["repo", "assets"] ["repo"] true []).2.downloaded
      = 2 := by
  exact ⟨rfl, rfl⟩

/-- C2 (amended): a URL recorded in the Dedup Ledger is never fetched
again — unconditionally across all remaining documents of the batch run
(even under force-download), and in the single-page script whenever
overwrite is not requested, where the duplicate reference is reported as
a skip reusing the recorded state; with overwrite requested the
single-page script bypasses the duplicate check (see the
counterexample). -/
theorem c2_recorded_url_never_refetched :
    (∀ (fetch : String → FetchOutcome) (root : List String) (force dry : Bool)
        (files : List (List String)) (st : RunState) (u : String),
      st.seen_urls.contains u = true →
      countOccur u (runCache fetch root force dry files st).2.1.downloads
        = countOccur u st.downloads) ∧
    (∀ (http : String → ReqOutcome) (page_url : String) (output_dir repo_root : List String)
        (src : String) (st : ResolveState),
      st.seen.any (fun e => e.1 == urljoin page_url src) = true →
      resolveStep http page_url output_dir repo_root false src st
        = (none, { st with skipped := st.skipped + 1 })) ∧
    (∀ (http : String → ReqOutcome) (page_url : String) (output_dir repo_root : List String)
        (sources : List String) (st : ResolveState) (u : String),
      st.seen.any (fun e => e.1 == u) = true →
      countGets u (resolveAssetsFrom http page_url output_dir repo_root false sources st).2.effects
        = countGets u st.effects) := by
  refine ⟨?_, ?_, ?_⟩
  · intro fetch root force dry files st u h
    exact runCache_ledger_no_refetch fetch root force dry u files st h
  · intro http page_url output_dir repo_root src st h
    unfold resolveStep
    by_cases h1 : pyStartsWith (urlparse (urljoin page_url src)).scheme "http" = true
    · simp only [h1, Bool.not_true, Bool.false_eq_true, if_false]
      rw [if_pos (by simp [h])]
    · simp only [Bool.eq_false_iff.mpr h1, Bool.not_false, if_true]
  · intro http page_url output_dir repo_root sources st u h
    exact resolveAssetsFrom_seen_no_refetch http page_url output_dir repo_root u sources st h

/-- Witness for `c2_recorded_url_never_refetched`: a batch run over a
document referencing an already-recorded URL performs no download for
it. -/
theorem c2_recorded_url_never_refetched_witness :
    countOccur "https://assets.rmb.co.za/a.png"
      (runCache (fun _ => FetchOutcome.ok "IMG") ["root"] false false [["root", "a.html"]]
        ⟨["https://assets.rmb.co.za/a.png"], [],
         [(["root", "a.html"], "https://assets.rmb.co.za/a.png")], [], []⟩).2.1.downloads
      = countOccur "https://assets.rmb.co.za/a.png" [] :=
  c2_recorded_url_never_refetched.1 (fun _ => FetchOutcome.ok "IMG") ["root"] false false
    [["root", "a.html"]]
    ⟨["https://assets.rmb.co.za/a.png"], [],
     [(["root", "a.html"], "https://assets.rmb.co.za/a.png")], [], []⟩
    "https://assets.rmb.co.za/a.png" (by rfl)

/-- Witness for `c8_variant_order_and_first_success`: with an oracle
that succeeds immediately, the download succeeds on the first variant
and requests exactly one URL. -/
theorem c8_variant_order_and_first_success_witness :
    download_remote_file (fun _ => FetchOutcome.ok "DATA")
        "https://cdn-assets-eu.frontify.com/a:b c.png?x=1"
        ["root", "assets", "pic.png"] false []
      = (.ok true, fsWrite [] ["root", "assets", "pic.png"] "DATA",
          (candidateUrls "https://cdn-assets-eu.frontify.com/a:b c.png?x=1").take 1) :=
  (c8_variant_order_and_first_success "https://cdn-assets-eu.frontify.com/a:b c.png?x=1").2
    (fun _ => FetchOutcome.ok "DATA") ["root", "assets", "pic.png"] [] false 0
    "https://cdn-assets-eu.frontify.com/a:b%20c.png?x=1" "DATA"
    (Or.inl rfl) (by simp) (by rfl) rfl

/-- C10: a URL whose fetch raises `MissingRemoteAsset` (HTTP 404) is
never added to the run-wide ledger: over any batch run whose documents
each reference exactly that URL, the run completes with the ledger and
filesystem unchanged, a fresh download is invoked for the URL for every
document, and `missing_assets` gains one (document, url) entry per
referencing document. -/
theorem c10_missing_refetched_per_document (fetch : String → FetchOutcome)
    (root : List String) (force : Bool) (u c0 : String)
    (hc0 : (candidateUrls u).get? 0 = some c0)
    (h404 : fetch c0 = FetchOutcome.httpErr 404)
    (hhost : ASSET_HOSTS.contains (urlparse u).netloc = true)
    (hpath : lstripChar '/' (urlparse u).path ≠ "") :
    ∀ (files : List (List String)) (st : RunState),
      st.seen_urls.contains u = false →
      (∀ f ∈ files, uniqueUrlMatches ((fsRead st.fs f).getD "") = [u]) →
      fsContains st.fs (root ++ localRelativeSegments (lstripChar '/' (urlparse u).path))
        = false →
      (runCache fetch root force false files st).1 = none ∧
      (runCache fetch root force false files st).2.1.seen_urls = st.seen_urls ∧
      (runCache fetch root force false files st).2.1.fs = st.fs ∧
      (runCache fetch root force false files st).2.1.missing_assets
        = st.missing_assets ++ files.map (fun f => (f, u)) ∧
      (runCache fetch root force false files st).2.1.downloads
        = st.downloads ++ files.map (fun _ => u) := by
  obtain ⟨cs, hcs⟩ : ∃ cs, candidateUrls u = c0 :: cs := by
    rcases hcu : candidateUrls u with _ | ⟨c, cs⟩
    · rw [hcu] at hc0; simp at hc0
    · rw [hcu] at hc0
      simp at hc0
      exact ⟨cs, by rw [hc0]⟩
  intro files
  induction files with
  | nil =>
    intro st _ _ _
    exact ⟨rfl, rfl, rfl, by simp [runCache], by simp [runCache]⟩
  | cons f rest ih =>
    intro st hseen hmatch hfs
    have hm := hmatch f (by simp)
    have hdl : download_remote_file fetch u
        (root ++ localRelativeSegments (lstripChar '/' (urlparse u).path)) force st.fs
        = (.error (.missing u), st.fs, [c0]) := by
      unfold download_remote_file
      rw [if_neg (by rw [hfs]; simp)]
      rw [hcs]
      simp [attemptDownload, h404]
    have hone := rewrite_file_single_missing fetch f root force u st [c0]
      hm hhost hpath hseen hdl
    have htail := ih
      { st with
          missing_assets := st.missing_assets ++ [(f, u)],
          attempts := st.attempts ++ [c0],
          downloads := st.downloads ++ [u] }
      hseen (fun f' hf' => hmatch f' (List.mem_cons_of_mem f hf')) hfs
    rcases hr : runCache fetch root force false rest
        { st with
            missing_assets := st.missing_assets ++ [(f, u)],
            attempts := st.attempts ++ [c0],
            downloads := st.downloads ++ [u] }
      with ⟨e2, st3, tally⟩
    rw [hr] at htail
    obtain ⟨h1, h2, h3, h4, h5⟩ := htail
    simp only [runCache, hone, hr]
    exact ⟨h1, h2, h3, by rw [h4]; simp, by rw [h5]; simp⟩

/-- Witness for `c10_missing_refetched_per_document`: two documents both
referencing a 404ing URL produce two fresh download attempts and two
missing-asset entries, and the ledger stays empty. -/
theorem c10_missing_refetched_per_document_witness :
    (runCache (fun _ => FetchOutcome.httpErr 404) ["r"] false false
        [["r", "1.html"], ["r", "2.html"]]
        ⟨[], [], [(["r", "1.html"], "https://assets.rmb.co.za/gone.png"),
                  (["r", "2.html"], "https://assets.rmb.co.za/gone.png")], [], []⟩).1 = none ∧
    (runCache (fun _ => FetchOutcome.httpErr 404) ["r"] false false
        [["r", "1.html"], ["r", "2.html"]]
        ⟨[], [], [(["r", "1.html"], "https://assets.rmb.co.za/gone.png"),
                  (["r", "2.html"], "https://assets.rmb.co.za/gone.png")], [], []⟩).2.1.seen_urls
      = [] ∧
    (runCache (fun _ => FetchOutcome.httpErr 404) ["r"] false false
        [["r", "1.html"], ["r", "2.html"]]
        ⟨[], [], [(["r", "1.html"], "https://assets.rmb.co.za/gone.png"),
                  (["r", "2.html"], "https://assets.rmb.co.za/gone.png")], [], []⟩).2.1.fs
      = [(["r", "1.html"], "https://assets.rmb.co.za/gone.png"),
         (["r", "2.html"], "https://assets.rmb.co.za/gone.png")] ∧
    (runCache (fun _ => FetchOutcome.httpErr 404) ["r"] false false
        [["r", "1.html"], ["r", "2.html"]]
        ⟨[], [], [(["r", "1.html"], "https://assets.rmb.co.za/gone.png"),
                  (["r", "2.html"], "https://assets.rmb.co.za/gone.png")], [], []⟩).2.1.missing_assets
      = [] ++ [["r", "1.html"], ["r", "2.html"]].map
          (fun f => (f, "https://assets.rmb.co.za/gone.png")) ∧
    (runCache (fun _ => FetchOutcome.httpErr 404) ["r"] false false
        [["r", "1.html"], ["r", "2.html"]]
        ⟨[], [], [(["r", "1.html"], "https://assets.rmb.co.za/gone.png"),
                  (["r", "2.html"], "https://assets.rmb.co.za/gone.png")], [], []⟩).2.1.downloads
      = [] ++ [["r", "1.html"], ["r", "2.html"]].map
          (fun _ => "https://assets.rmb.co.za/gone.png") :=
  c10_missing_refetched_per_document (fun _ => FetchOutcome.httpErr 404) ["r"] false
    "https://assets.rmb.co.za/gone.png" "https://assets.rmb.co.za/gone.png"
    (by rfl) rfl (by rfl) (by decide)
    [["r", "1.html"], ["r", "2.html"]]
    ⟨[], [], [(["r", "1.html"], "https://assets.rmb.co.za/gone.png"),
              (["r", "2.html"], "https://assets.rmb.co.za/gone.png")], [], []⟩
    (by rfl)
    (by intro f hf; fin_cases hf <;> rfl)
    (by rfl)

end ChinaRMB
